import Mathlib

/-!
Verification development for the `sc-delegation-rs` repository: a shallow
embedding of the fund-transformation engine (`user-fund-storage`) and the
node-activation state machines of the `latest` and `v0_4` contract variants,
together with proofs of the behavioural properties stated about them.

Conventions of the embedding:
* arbitrary-precision non-negative amounts (`BigUint`) become `Nat`;
* BLS keys and signatures are opaque byte strings in the source and are
  represented by `Nat` identifiers;
* stateful trait methods become explicit state-passing functions returning
  `Except String α × State`; `sc_error!`/`require!` become `.error msg`
  paired with the state as mutated so far (the raw functions expose the
  partial mutations; the `runEp` wrapper models the platform's
  transaction-revert semantics for endpoints that return an error);
* the asynchronous auction call issued by a command is returned as a value
  (`OutCall` / `OutCallV`) carrying the request payload and the node-id list
  captured for the callback.
-/

namespace SCDel

/-- A fund bucket: an amount of stake held by one owner in one accounting
phase (`desc`).  Mirrors the fund records of `user-fund-storage`
(owner id, fund description, amount). -/
structure Bucket (δ : Type) where
  user : Nat
  desc : δ
  amount : Nat
deriving DecidableEq, Repr

/-- Result of a split-convert scan: the new bucket list, the remaining
unconverted amount (`none` when the request was unbounded), and the list of
owners touched (in scan order, possibly with duplicates). -/
structure SplitResult (δ : Type) where
  funds : List (Bucket δ)
  rem : Option Nat
  touched : List Nat
deriving Repr

/-- How much of a bucket holding `avail` is converted when `optMax` remains
to be converted (`none` = unbounded). -/
def moveAmt (optMax : Option Nat) (avail : Nat) : Nat :=
  match optMax with
  | none => avail
  | some m => min m avail

/-- Modelled from the spec: `fund_module`'s primitives
`split_convert_max_by_type` / `split_convert_max_by_user` (`fund_module.rs`
is not among the sources).  Per §4.3: scan the buckets, and for each bucket
selected by `pick` for which `mapper` yields a destination description,
convert `moveAmt` of it (bounded by the remaining `optMax`), splitting the
bucket when only part of it is converted; decrement the remaining amount and
record the owner as touched.  Zero-amount buckets are never created (§4.1)
and buckets failing the predicate are skipped.  The by-user variant is
obtained by including the owner test in `pick`. -/
def splitConvertMax {δ : Type} (pick : Bucket δ → Bool)
    (mapper : Bucket δ → Option δ) :
    Option Nat → List (Bucket δ) → SplitResult δ
  | optMax, [] => ⟨[], optMax, []⟩
  | optMax, b :: rest =>
    if pick b then
      match mapper b with
      | some nd =>
        let toMove := moveAmt optMax b.amount
        if toMove = 0 then
          let r := splitConvertMax pick mapper optMax rest
          ⟨b :: r.funds, r.rem, r.touched⟩
        else
          let r := splitConvertMax pick mapper (optMax.map (fun m => m - toMove)) rest
          ⟨(if b.amount - toMove = 0 then [] else [⟨b.user, b.desc, b.amount - toMove⟩])
              ++ ⟨b.user, nd, toMove⟩ :: r.funds,
            r.rem, b.user :: r.touched⟩
      | none =>
        let r := splitConvertMax pick mapper optMax rest
        ⟨b :: r.funds, r.rem, r.touched⟩
    else
      let r := splitConvertMax pick mapper optMax rest
      ⟨b :: r.funds, r.rem, r.touched⟩

/-- Sum of the amounts of the buckets selected by `p`. -/
def pickSum {δ : Type} (p : Bucket δ → Bool) (funds : List (Bucket δ)) : Nat :=
  funds.foldr (fun b acc => if p b then b.amount + acc else acc) 0

/-- Total amount owned by `u` across all bucket kinds (§3: the owner's total
claim on the pool). -/
def userSum {δ : Type} (u : Nat) (funds : List (Bucket δ)) : Nat :=
  pickSum (fun b => decide (b.user = u)) funds

/-- `true` exactly on `.error`. -/
def isErr {ε α : Type} : Except ε α → Bool
  | .error _ => true
  | .ok _ => false

/-- Endpoint semantics: a contract endpoint whose body signals an error has
all its storage mutations reverted by the platform, so the caller observes
the pre-call state together with the error message. -/
def runEp {σ α : Type} (f : σ → Except String α × σ) (s : σ) :
    Except String α × σ :=
  match f s with
  | (.ok a, s') => (.ok a, s')
  | (.error e, _) => (.error e, s)

/-- Insertion into a sorted list of naturals (ascending). -/
def insertSorted (n : Nat) : List Nat → List Nat
  | [] => [n]
  | m :: rest => if n ≤ m then n :: m :: rest else m :: insertSorted n rest

/-- Ascending sort of a list of naturals (models `Vec::sort`). -/
def sortNat (l : List Nat) : List Nat := l.foldr insertSorted []

/-- `[n, n-1, ..., 1]`: the node ids visited by a descending scan starting
at `num_nodes`. -/
def descList : Nat → List Nat
  | 0 => []
  | n + 1 => (n + 1) :: descList n

/-- Result of an asynchronous auction call, as seen by a callback: per-node
status arguments on success, or a transport-level error message covering
the whole batch. -/
inductive AsyncCallResult (α : Type) where
  | ok (value : α)
  | err (errMsg : String)

/-- Modelled from the spec: `node_config`'s `split_node_ids_by_err`
(`node_config.rs` is not among the sources).  §4.2: partition the original
requested node-id list into the succeeded and failed subsets using the
authority's per-node status response, correlated by position (status `0`
means success). -/
def splitNodeIdsByErr (nodeIds : List Nat) (statuses : List Nat) :
    List Nat × List Nat :=
  let z := nodeIds.zip statuses
  ((z.filter (fun p => p.2 = 0)).map (fun p => p.1),
   (z.filter (fun p => p.2 ≠ 0)).map (fun p => p.1))

namespace FundTransf

/-- Fund bucket kinds of `user-fund-storage` (`types/fund_type.rs` is not
among the sources; the kinds and their tags are fixed by their uses in
`fund_transf_module.rs` and §3 of the spec). -/
inductive FundType where
  | Waiting | Active | UnStaked | DeferredPayment | WithdrawOnly
deriving DecidableEq, Repr

/-- Fund bucket descriptions: kind plus, for the time-gated kinds, the
creation block nonce. -/
inductive FundDescription where
  | Waiting
  | Active
  | UnStaked (created : Nat)
  | DeferredPayment (created : Nat)
  | WithdrawOnly
deriving DecidableEq, Repr

/-- The kind of a fund description. -/
def FundDescription.fundType : FundDescription → FundType
  | .Waiting => .Waiting
  | .Active => .Active
  | .UnStaked _ => .UnStaked
  | .DeferredPayment _ => .DeferredPayment
  | .WithdrawOnly => .WithdrawOnly

/-- The fund ledger of `user-fund-storage`: a list of owner-tagged buckets. -/
abbrev Ledger := List (Bucket FundDescription)

/-- `fund_transf_module.rs` `unstake_transf`: convert up to `amount` of the
user's Active stake into `UnStaked{created: current_block_nonce}`; a
positive remainder is the business error
"cannot offer more than the user active stake". -/
def unstake_transf (unstakeUserId : Nat) (amount : Nat) (blockNonce : Nat)
    (funds : Ledger) : Except String Unit × Ledger :=
  let r := splitConvertMax
    (fun b => decide (b.user = unstakeUserId ∧ b.desc.fundType = FundType.Active))
    (fun _ => some (.UnStaked blockNonce))
    (some amount) funds
  if r.rem.getD 0 > 0 then
    (.error "cannot offer more than the user active stake", r.funds)
  else
    (.ok (), r.funds)

/-- `fund_transf_module.rs` `swap_waiting_to_active`: pool-wide conversion of
up to `amount` from Waiting to Active; returns the sorted, deduplicated list
of owners touched, the unconverted remainder, and the new ledger. -/
def swap_waiting_to_active (amount : Nat) (funds : Ledger) :
    List Nat × Nat × Ledger :=
  let r := splitConvertMax
    (fun b => decide (b.desc.fundType = FundType.Waiting))
    (fun _ => some .Active)
    (some amount) funds
  ((sortNat r.touched).dedup, r.rem.getD 0, r.funds)

/-- `fund_transf_module.rs` `swap_active_to_unstaked`: pool-wide conversion
of up to `amount` from Active to `UnStaked{created: current_block_nonce}`. -/
def swap_active_to_unstaked (amount : Nat) (blockNonce : Nat) (funds : Ledger) :
    List Nat × Nat × Ledger :=
  let r := splitConvertMax
    (fun b => decide (b.desc.fundType = FundType.Active))
    (fun _ => some (.UnStaked blockNonce))
    (some amount) funds
  ((sortNat r.touched).dedup, r.rem.getD 0, r.funds)

/-- `fund_transf_module.rs` `swap_unstaked_to_deferred_payment`: pool-wide
conversion of up to `amount` from UnStaked to DeferredPayment, preserving
each bucket's `created` tag. -/
def swap_unstaked_to_deferred_payment (amount : Nat) (funds : Ledger) :
    Nat × Ledger :=
  let r := splitConvertMax
    (fun b => decide (b.desc.fundType = FundType.UnStaked))
    (fun b => match b.desc with
      | .UnStaked created => some (.DeferredPayment created)
      | _ => none)
    (some amount) funds
  (r.rem.getD 0, r.funds)

/-- `fund_transf_module.rs` `claim_all_eligible_deferred_payments`: unbounded
conversion of the user's DeferredPayment buckets older than
`n_blocks_before_claim` into WithdrawOnly. -/
def claim_all_eligible_deferred_payments (userId : Nat)
    (nBlocksBeforeClaim : Nat) (blockNonce : Nat) (funds : Ledger) : Ledger :=
  let r := splitConvertMax
    (fun b => decide (b.user = userId ∧ b.desc.fundType = FundType.DeferredPayment))
    (fun b => match b.desc with
      | .DeferredPayment created =>
        if blockNonce > created + nBlocksBeforeClaim then some .WithdrawOnly
        else none
      | _ => none)
    none funds
  r.funds

/-- The user's total Active stake (source availability for `unstake_transf`). -/
def activeSumUser (userId : Nat) (funds : Ledger) : Nat :=
  pickSum (fun b => decide (b.user = userId ∧ b.desc.fundType = FundType.Active)) funds

end FundTransf

namespace Latest

/-- Node states of the `latest` variant (`node_storage/types` is not among
the sources; the variants and their payloads are fixed by their uses in
`latest/src/node_activation.rs`). -/
inductive NodeState where
  | Inactive
  | PendingActivation
  | Active
  | PendingDeactivation
  | UnBondPeriod (started : Nat)
  | PendingUnBond (unbondStarted : Nat)
deriving DecidableEq, Repr

/-- `true` on the transient states that exist only while an asynchronous
auction call is outstanding for the node. -/
def NodeState.isPending : NodeState → Bool
  | .PendingActivation => true
  | .PendingDeactivation => true
  | .PendingUnBond _ => true
  | _ => false

/-- `true` exactly on `PendingUnBond`. -/
def NodeState.isPendingUnBond : NodeState → Bool
  | .PendingUnBond _ => true
  | _ => false

/-- `true` exactly on `UnBondPeriod`. -/
def NodeState.isUnBondPeriod : NodeState → Bool
  | .UnBondPeriod _ => true
  | _ => false

/-- The block nonce carried by an `UnBondPeriod`/`PendingUnBond` state. -/
def NodeState.carriedNonce : NodeState → Nat
  | .UnBondPeriod started => started
  | .PendingUnBond unbondStarted => unbondStarted
  | _ => 0

/-- Events emitted by `latest/src/node_activation.rs`. -/
inductive LEvent where
  | stakeNodeOk
  | stakeNodeFail (msg : String)
  | unstakeNodeOk
  | unstakeNodeFail (msg : String)
  | unbondNodeOk
  | unbondNodeFail (msg : String)
deriving DecidableEq, Repr

/-- The asynchronous request a `latest` command sends to the auction
contract, with the node-id list captured for the callback. -/
inductive OutCall where
  | stake (numNodes : Nat) (keysSigs : List (Nat × Nat)) (amount : Nat)
      (cbNodeIds : List Nat)
  | unstake (withTokens : Bool) (blsKeys : List Nat) (cbNodeIds : List Nat)
  | unbond (blsKeys : List Nat) (cbNodeIds : List Nat)
deriving DecidableEq, Repr

/-- Contract state visible to `latest/src/node_activation.rs`.  The node
registry (`get_node_id`, `get_node_state`, signatures) and the collaborator
lookups (settings, rewards, checkpoint lock) are represented as fields;
`events` is the audit log. -/
structure LatestState where
  nodeState : Nat → NodeState
  nodeKey : Nat → Nat
  nodeSig : Nat → Nat
  idToKey : Nat → Nat
  numNodes : Nat
  callerIsOwner : Bool
  bootstrapMode : Bool
  globalOpInProgress : Bool
  totalUnprotected : Nat
  ownerStakeShareOk : Bool
  blockNonce : Nat
  events : List LEvent

/-- `set_node_state`. -/
def setNodeState (s : LatestState) (n : Nat) (st : NodeState) : LatestState :=
  { s with nodeState := fun m => if m = n then st else s.nodeState m }

/-- Append an emitted event to the audit log. -/
def addEvent (s : LatestState) (e : LEvent) : LatestState :=
  { s with events := s.events ++ [e] }

/-- Set every node of `ids` to state `st` (the per-node loops of the
callbacks). -/
def setStates (s : LatestState) (ids : List Nat) (st : NodeState) : LatestState :=
  ids.foldl (fun acc n => setNodeState acc n st) s

/-- The per-key loop of `stake_nodes`: resolve the key (`0` = unknown key,
error), require the node `Inactive` (else error), record id and
key+signature pair, and optimistically set the node `PendingActivation`. -/
def rawStakeLoop (keys : List Nat) (ids : List Nat) (pairs : List (Nat × Nat))
    (s : LatestState) :
    Except String (List Nat × List (Nat × Nat)) × LatestState :=
  match keys with
  | [] => (.ok (ids, pairs), s)
  | k :: rest =>
    let nid := s.nodeKey k
    if nid = 0 then (.error "unknown node provided", s)
    else if s.nodeState nid ≠ NodeState.Inactive then
      (.error "node must be inactive", s)
    else
      rawStakeLoop rest (ids ++ [nid]) (pairs ++ [(k, s.nodeSig nid)])
        (setNodeState s nid .PendingActivation)

/-- `stake_nodes` (raw body, without the platform's revert-on-error): the
owner/bootstrap/checkpoint/funds/owner-share guards, then the per-key loop,
then `perform_stake_nodes` issuing one batched stake request. -/
def rawStakeNodes (amountToStake : Nat) (blsKeys : List Nat) (s : LatestState) :
    Except String OutCall × LatestState :=
  if !s.callerIsOwner then (.error "only owner allowed to stake nodes", s)
  else if s.bootstrapMode then (.error "cannot stake nodes in bootstrap mode", s)
  else if s.globalOpInProgress then
    (.error "node operations are temporarily paused as checkpoint is reset", s)
  else if s.totalUnprotected < amountToStake then
    (.error "not enough funds in contract to stake nodes", s)
  else if !s.ownerStakeShareOk then
    (.error "owner stake share too low", s)
  else
    match rawStakeLoop blsKeys [] [] s with
    | (.ok (ids, pairs), s') =>
      (.ok (OutCall.stake ids.length pairs amountToStake ids), s')
    | (.error e, s') => (.error e, s')

/-- The `stakeNodes` endpoint (with revert-on-error). -/
def stakeNodesEp (amountToStake : Nat) (blsKeys : List Nat) :
    LatestState → Except String OutCall × LatestState :=
  runEp (rawStakeNodes amountToStake blsKeys)

/-- The key-resolution loop of `unstake_nodes` (reads only). -/
def rawResolveKeys (keys : List Nat) (s : LatestState) : Except String (List Nat) :=
  match keys with
  | [] => .ok []
  | k :: rest =>
    if s.nodeKey k = 0 then .error "unknown node provided"
    else
      match rawResolveKeys rest s with
      | .ok ids => .ok (s.nodeKey k :: ids)
      | .error e => .error e

/-- The per-node loop of `perform_unstake_nodes`: require `Active`, set
`PendingDeactivation`. -/
def rawPerformUnstakeLoop (ids : List Nat) (s : LatestState) :
    Except String Unit × LatestState :=
  match ids with
  | [] => (.ok (), s)
  | n :: rest =>
    if s.nodeState n ≠ NodeState.Active then (.error "node not active", s)
    else rawPerformUnstakeLoop rest (setNodeState s n .PendingDeactivation)

/-- `perform_unstake_nodes`: the per-node loop, then the batched unstake
request (with or without token withdrawal). -/
def rawPerformUnstakeNodes (unstakeTokens : Bool) (ids : List Nat)
    (keys : List Nat) (s : LatestState) : Except String OutCall × LatestState :=
  match rawPerformUnstakeLoop ids s with
  | (.ok _, s') => (.ok (OutCall.unstake unstakeTokens keys ids), s')
  | (.error e, s') => (.error e, s')

/-- `unstake_nodes` (raw body): owner and checkpoint guards, key resolution,
then `perform_unstake_nodes`. -/
def rawUnstakeNodes (unstakeTokens : Bool) (keys : List Nat) (s : LatestState) :
    Except String OutCall × LatestState :=
  if !s.callerIsOwner then (.error "only owner allowed to unstake nodes", s)
  else if s.globalOpInProgress then
    (.error "node operations are temporarily paused as checkpoint is reset", s)
  else
    match rawResolveKeys keys s with
    | .error e => (.error e, s)
    | .ok ids => rawPerformUnstakeNodes unstakeTokens ids keys s

/-- The `unStakeNodes` / `unStakeNodesAndTokens` endpoints (with
revert-on-error). -/
def unstakeNodesEp (unstakeTokens : Bool) (keys : List Nat) :
    LatestState → Except String OutCall × LatestState :=
  runEp (rawUnstakeNodes unstakeTokens keys)

/-- `prepare_node_for_unbond_if_possible`: a node in `UnBondPeriod{started}`
moves to `PendingUnBond{unbond_started: started}` and is selected; any other
state is left untouched and not selected.  Note: no elapsed-time check. -/
def prepareNodeForUnbondIfPossible (s : LatestState) (n : Nat) :
    Bool × LatestState :=
  match s.nodeState n with
  | .UnBondPeriod started =>
    (true, setNodeState s n (.PendingUnBond started))
  | _ => (false, s)

/-- The per-key loop of `unbond_specific_nodes`: resolve, then require the
node to be preparable for unbond. -/
def rawUnbondSpecificLoop (keys : List Nat) (s : LatestState) :
    Except String (List Nat) × LatestState :=
  match keys with
  | [] => (.ok [], s)
  | k :: rest =>
    let nid := s.nodeKey k
    if nid = 0 then (.error "unknown node provided", s)
    else
      match prepareNodeForUnbondIfPossible s nid with
      | (false, s') => (.error "node cannot be unbonded", s')
      | (true, s') =>
        match rawUnbondSpecificLoop rest s' with
        | (.ok ids, s'') => (.ok (nid :: ids), s'')
        | (.error e, s'') => (.error e, s'')

/-- `unbond_specific_nodes` (raw body). -/
def rawUnbondSpecificNodes (keys : List Nat) (s : LatestState) :
    Except String OutCall × LatestState :=
  if !s.callerIsOwner then (.error "only owner allowed to unbond nodes", s)
  else if s.globalOpInProgress then
    (.error "node operations are temporarily paused as checkpoint is reset", s)
  else if keys.isEmpty then (.error "no BLS keys provided", s)
  else
    match rawUnbondSpecificLoop keys s with
    | (.ok ids, s') => (.ok (OutCall.unbond keys ids), s')
    | (.error e, s') => (.error e, s')

/-- The `unBondNodes` endpoint (with revert-on-error). -/
def unbondSpecificEp (keys : List Nat) :
    LatestState → Except String OutCall × LatestState :=
  runEp (rawUnbondSpecificNodes keys)

/-- The descending scan of `unbond_all_possible_nodes`: visit node ids from
the argument down to `1`, selecting (and preparing) every node for which
`prepare_node_for_unbond_if_possible` succeeds; returns the selected ids,
their BLS keys and the mutated state. -/
def unbondScan (s : LatestState) : Nat → List Nat × List Nat × LatestState
  | 0 => ([], [], s)
  | n + 1 =>
    match prepareNodeForUnbondIfPossible s (n + 1) with
    | (true, s') =>
      let r := unbondScan s' n
      ((n + 1) :: r.1, s'.idToKey (n + 1) :: r.2.1, r.2.2)
    | (false, s') => unbondScan s' n

/-- `unbond_all_possible_nodes` (raw body): owner and checkpoint guards, the
descending scan from `num_nodes`, and — when any node was selected — one
batched unbond request. -/
def rawUnbondAllPossibleNodes (s : LatestState) :
    Except String (Option OutCall) × LatestState :=
  if !s.callerIsOwner then (.error "only owner allowed to unbond nodes", s)
  else if s.globalOpInProgress then
    (.error "node operations are temporarily paused as checkpoint is reset", s)
  else
    let r := unbondScan s s.numNodes
    if r.1.isEmpty then (.ok none, r.2.2)
    else (.ok (some (OutCall.unbond r.2.1 r.1)), r.2.2)

/-- The `unBondAllPossibleNodes` endpoint (with revert-on-error). -/
def unbondAllEp : LatestState → Except String (Option OutCall) × LatestState :=
  runEp rawUnbondAllPossibleNodes

/-- `auction_stake_callback_ok`: empty subset is a silent no-op; otherwise
set each node `Active` and emit one success event. -/
def auctionStakeCallbackOk (ids : List Nat) (s : LatestState) :
    Except String Unit × LatestState :=
  if ids.isEmpty then (.ok (), s)
  else (.ok (), addEvent (setStates s ids .Active) .stakeNodeOk)

/-- `auction_stake_callback_fail`: empty subset is a silent no-op; otherwise
revert each node to `Inactive` and emit one failure event carrying the
message. -/
def auctionStakeCallbackFail (ids : List Nat) (msg : String) (s : LatestState) :
    Except String Unit × LatestState :=
  if ids.isEmpty then (.ok (), s)
  else (.ok (), addEvent (setStates s ids .Inactive) (.stakeNodeFail msg))

/-- `auction_stake_callback`: on per-node statuses, split into the
succeeded/failed subsets and run both handlers; on a transport-level error,
run the failure handler on the whole original list with the transport
message. -/
def auctionStakeCallback (ids : List Nat) (res : AsyncCallResult (List Nat))
    (s : LatestState) : Except String Unit × LatestState :=
  match res with
  | .ok statuses =>
    let p := splitNodeIdsByErr ids statuses
    match auctionStakeCallbackOk p.1 s with
    | (.ok _, s') => auctionStakeCallbackFail p.2 "staking failed for some nodes" s'
    | (.error e, s') => (.error e, s')
  | .err msg => auctionStakeCallbackFail ids msg s

/-- `auction_unstake_callback_ok`: set each node
`UnBondPeriod{started: current_block_nonce}` and emit one success event. -/
def auctionUnstakeCallbackOk (ids : List Nat) (s : LatestState) :
    Except String Unit × LatestState :=
  if ids.isEmpty then (.ok (), s)
  else
    (.ok (), addEvent (setStates s ids (.UnBondPeriod s.blockNonce)) .unstakeNodeOk)

/-- `auction_unstake_callback_fail`: revert each node to `Active` and emit
one failure event carrying the message. -/
def auctionUnstakeCallbackFail (ids : List Nat) (msg : String) (s : LatestState) :
    Except String Unit × LatestState :=
  if ids.isEmpty then (.ok (), s)
  else (.ok (), addEvent (setStates s ids .Active) (.unstakeNodeFail msg))

/-- `auction_unstake_callback`. -/
def auctionUnstakeCallback (ids : List Nat) (res : AsyncCallResult (List Nat))
    (s : LatestState) : Except String Unit × LatestState :=
  match res with
  | .ok statuses =>
    let p := splitNodeIdsByErr ids statuses
    match auctionUnstakeCallbackOk p.1 s with
    | (.ok _, s') =>
      auctionUnstakeCallbackFail p.2 "unstaking failed for some nodes" s'
    | (.error e, s') => (.error e, s')
  | .err msg => auctionUnstakeCallbackFail ids msg s

/-- `auction_unbond_callback_ok`: set each node `Inactive` and emit one
success event. -/
def auctionUnbondCallbackOk (ids : List Nat) (s : LatestState) :
    Except String Unit × LatestState :=
  if ids.isEmpty then (.ok (), s)
  else (.ok (), addEvent (setStates s ids .Inactive) .unbondNodeOk)

/-- The revert loop of `auction_unbond_callback_fail`: each node in
`PendingUnBond{unbond_started}` reverts to `UnBondPeriod{started:
unbond_started}` (the original start block carried through the pending
state); a node in any other state aborts with "node not pending unbond". -/
def revertUnbondLoop (ids : List Nat) (s : LatestState) :
    Except String Unit × LatestState :=
  match ids with
  | [] => (.ok (), s)
  | n :: rest =>
    match s.nodeState n with
    | .PendingUnBond unbondStarted =>
      revertUnbondLoop rest (setNodeState s n (.UnBondPeriod unbondStarted))
    | _ => (.error "node not pending unbond", s)

/-- `auction_unbond_callback_fail`: empty subset is a silent no-op;
otherwise run the revert loop and, when it succeeds, emit one failure event
carrying the message. -/
def auctionUnbondCallbackFail (ids : List Nat) (msg : String) (s : LatestState) :
    Except String Unit × LatestState :=
  if ids.isEmpty then (.ok (), s)
  else
    match revertUnbondLoop ids s with
    | (.ok _, s') => (.ok (), addEvent s' (.unbondNodeFail msg))
    | (.error e, s') => (.error e, s')

/-- `auction_unbond_callback`. -/
def auctionUnbondCallback (ids : List Nat) (res : AsyncCallResult (List Nat))
    (s : LatestState) : Except String Unit × LatestState :=
  match res with
  | .ok statuses =>
    let p := splitNodeIdsByErr ids statuses
    match auctionUnbondCallbackOk p.1 s with
    | (.ok _, s') =>
      auctionUnbondCallbackFail p.2 "unbonding failed for some nodes" s'
    | (.error e, s') => (.error e, s')
  | .err msg => auctionUnbondCallbackFail ids msg s

end Latest

namespace V04

/-- Node states of the `v0_4` variant (`node_state.rs` is not among the
sources; the variants are fixed by their uses in
`v0_4/src/node_activation.rs` — none carries a payload, the unbond start
block lives in the separate `bl_nonce_of_unstake` storage). -/
inductive VNodeState where
  | Inactive
  | PendingActivation
  | Active
  | PendingDeactivation
  | UnBondPeriod
  | PendingUnBond
  | ActivationFailed
deriving DecidableEq, Repr

/-- Modelled from the spec: the `v0_4` user-stake bucket kinds
(`user_stake_state.rs` and the `v0_4` `fund_transf_module` are not among the
sources).  §3/§4.2: one bucket kind per accounting phase, the kind awaiting
unbond carrying its creation block nonce for the age predicate. -/
inductive VFundDesc where
  | Inactive
  | PendingActivation
  | Active
  | PendingDeactivation
  | UnBondPeriod (created : Nat)
  | PendingUnBond
  | WithdrawOnly
  | ActivationFailed
deriving DecidableEq, Repr

/-- Events emitted by `v0_4/src/node_activation.rs`. -/
inductive VEvent where
  | activationOk
  | activationFail (msg : String)
  | deactivationOk
  | deactivationFail (msg : String)
  | unbondOk
  | unbondFail (msg : String)
deriving DecidableEq, Repr

/-- The asynchronous request a `v0_4` command sends to the auction contract.
`keysSigs` is the flat list alternating BLS key and signature, as built by
`stake_nodes`. -/
inductive OutCallV where
  | stake (numNodes : Nat) (keysSigs : List Nat) (amount : Nat)
      (cbNodeIds : List Nat)
  | unbond (blsKeys : List Nat) (cbNodeIds : List Nat)
deriving DecidableEq, Repr

/-- Contract state visible to `v0_4/src/node_activation.rs`.  The rewards
collaborator (`compute_all_rewards`) touches only reward storage, which is
outside this state, so its calls do not appear in the embedding. -/
structure V04State where
  nodeState : Nat → VNodeState
  nodeKey : Nat → Nat
  nodeSig : Nat → Nat
  idToKey : Nat → Nat
  unstakeNonce : Nat → Nat
  numNodes : Nat
  ownerCalled : Bool
  ownerStakeShareOk : Bool
  stakePerNode : Nat
  nBlocksBeforeUnbond : Nat
  blockNonce : Nat
  funds : List (Bucket VFundDesc)
  events : List VEvent

/-- `set_node_state`. -/
def setNodeState (s : V04State) (n : Nat) (st : VNodeState) : V04State :=
  { s with nodeState := fun m => if m = n then st else s.nodeState m }

/-- `set_node_bl_nonce_of_unstake`. -/
def setUnstakeNonce (s : V04State) (n : Nat) (v : Nat) : V04State :=
  { s with unstakeNonce := fun m => if m = n then v else s.unstakeNonce m }

/-- Append an emitted event to the audit log. -/
def addEvent (s : V04State) (e : VEvent) : V04State :=
  { s with events := s.events ++ [e] }

/-- Set every node of `ids` to state `st`. -/
def setStates (s : V04State) (ids : List Nat) (st : VNodeState) : V04State :=
  ids.foldl (fun acc n => setNodeState acc n st) s

/-- Modelled from the spec: `activate_start_transf` — move up to `amt` of
pooled stake from the free/inactive bucket into the in-flight
PendingActivation bucket (§4.2 stake pre-transition); returns the new ledger
and the unconverted remainder. -/
def activateStartTransf (amt : Nat) (funds : List (Bucket VFundDesc)) :
    List (Bucket VFundDesc) × Nat :=
  let r := splitConvertMax
    (fun b => decide (b.desc = VFundDesc.Inactive))
    (fun _ => some .PendingActivation)
    (some amt) funds
  (r.funds, r.rem.getD 0)

/-- Modelled from the spec: `activate_finish_ok_transf` — confirm up to
`amt` of in-flight stake into the Active bucket (§4.2 stake success). -/
def activateFinishOkTransf (amt : Nat) (funds : List (Bucket VFundDesc)) :
    List (Bucket VFundDesc) × Nat :=
  let r := splitConvertMax
    (fun b => decide (b.desc = VFundDesc.PendingActivation))
    (fun _ => some .Active)
    (some amt) funds
  (r.funds, r.rem.getD 0)

/-- Modelled from the spec: `activate_finish_fail_transf` — §4.2 stake
failure: "revert ledger stake to its pre-call bucket", i.e. move up to `amt`
of in-flight stake back to the free/inactive bucket it came from. -/
def activateFinishFailTransf (amt : Nat) (funds : List (Bucket VFundDesc)) :
    List (Bucket VFundDesc) × Nat :=
  let r := splitConvertMax
    (fun b => decide (b.desc = VFundDesc.PendingActivation))
    (fun _ => some .Inactive)
    (some amt) funds
  (r.funds, r.rem.getD 0)

/-- Modelled from the spec: `unstake_finish_ok_transf` — §4.2 unstake
success: confirm up to `amt` of pending-deactivation stake into the bucket
awaiting unbond, tagged with the current block nonce. -/
def unstakeFinishOkTransf (amt : Nat) (blockNonce : Nat)
    (funds : List (Bucket VFundDesc)) : List (Bucket VFundDesc) × Nat :=
  let r := splitConvertMax
    (fun b => decide (b.desc = VFundDesc.PendingDeactivation))
    (fun _ => some (.UnBondPeriod blockNonce))
    (some amt) funds
  (r.funds, r.rem.getD 0)

/-- Modelled from the spec: `unstake_finish_fail_transf` — §4.2 unstake
failure: revert up to `amt` of pending-deactivation stake to Active. -/
def unstakeFinishFailTransf (amt : Nat) (funds : List (Bucket VFundDesc)) :
    List (Bucket VFundDesc) × Nat :=
  let r := splitConvertMax
    (fun b => decide (b.desc = VFundDesc.PendingDeactivation))
    (fun _ => some .Active)
    (some amt) funds
  (r.funds, r.rem.getD 0)

/-- The age predicate of `unbond_start_transf`: a bucket awaiting unbond is
eligible when its age exceeds the configured unbond delay. -/
def unbondEligible (nBlocksBeforeUnbond : Nat) (blockNonce : Nat) :
    Bucket VFundDesc → Bool :=
  fun b => match b.desc with
    | .UnBondPeriod created => decide (blockNonce > created + nBlocksBeforeUnbond)
    | _ => false

/-- Modelled from the spec: `unbond_start_transf` — §4.2/§4.3 unbond
pre-transition: an amount-bounded, age-filtered conversion moving up to
`amt` out of the buckets awaiting unbond whose age exceeds the unbond delay
into the in-flight PendingUnBond bucket. -/
def unbondStartTransf (nBlocksBeforeUnbond : Nat) (blockNonce : Nat)
    (amt : Nat) (funds : List (Bucket VFundDesc)) :
    List (Bucket VFundDesc) × Nat :=
  let r := splitConvertMax
    (unbondEligible nBlocksBeforeUnbond blockNonce)
    (fun _ => some .PendingUnBond)
    (some amt) funds
  (r.funds, r.rem.getD 0)

/-- Modelled from the spec: `unbond_finish_ok_transf` — §4.2 unbond success:
confirm up to `amt` of in-flight unbonding stake into the free/withdrawable
bucket. -/
def unbondFinishOkTransf (amt : Nat) (funds : List (Bucket VFundDesc)) :
    List (Bucket VFundDesc) × Nat :=
  let r := splitConvertMax
    (fun b => decide (b.desc = VFundDesc.PendingUnBond))
    (fun _ => some .Inactive)
    (some amt) funds
  (r.funds, r.rem.getD 0)

/-- Modelled from the spec: `unbond_finish_fail_transf` — §4.2 unbond
failure: revert up to `amt` of in-flight unbonding stake to the bucket
awaiting unbond (the spec fixes no tag for the recreated bucket; the
current block nonce is used). -/
def unbondFinishFailTransf (blockNonce : Nat) (amt : Nat)
    (funds : List (Bucket VFundDesc)) : List (Bucket VFundDesc) × Nat :=
  let r := splitConvertMax
    (fun b => decide (b.desc = VFundDesc.PendingUnBond))
    (fun _ => some (.UnBondPeriod blockNonce))
    (some amt) funds
  (r.funds, r.rem.getD 0)

/-- The per-key loop of the `v0_4` `stake_nodes`: record id and
key/signature (before any check — and with no unknown-key check), require
the node `Inactive` (else error), set it `PendingActivation`. -/
def rawStakeLoop (keys : List Nat) (ids : List Nat) (pairs : List Nat)
    (s : V04State) : Except String (List Nat × List Nat) × V04State :=
  match keys with
  | [] => (.ok (ids, pairs), s)
  | k :: rest =>
    let nid := s.nodeKey k
    let ids' := ids ++ [nid]
    let pairs' := pairs ++ [k, s.nodeSig nid]
    if s.nodeState nid ≠ VNodeState.Inactive then (.error "node not inactive", s)
    else rawStakeLoop rest ids' pairs' (setNodeState s nid .PendingActivation)

/-- `perform_stake_nodes` (`v0_4`): validate the owner's stake share, move
`num_nodes × stake_per_node` from the free bucket into the in-flight bucket
(remainder ignored by the source), and issue one batched stake request. -/
def rawPerformStakeNodes (ids : List Nat) (pairs : List Nat) (s : V04State) :
    Except String OutCallV × V04State :=
  if !s.ownerStakeShareOk then (.error "owner stake share too low", s)
  else
    let stake := ids.length * s.stakePerNode
    let t := activateStartTransf stake s.funds
    (.ok (OutCallV.stake ids.length pairs stake ids), { s with funds := t.1 })

/-- `stake_nodes` (`v0_4`, raw body): owner guard, the per-key loop, then
`perform_stake_nodes`. -/
def rawStakeNodes (keys : List Nat) (s : V04State) :
    Except String OutCallV × V04State :=
  if !s.ownerCalled then (.error "only owner can activate nodes individually", s)
  else
    match rawStakeLoop keys [] [] s with
    | (.ok (ids, pairs), s') => rawPerformStakeNodes ids pairs s'
    | (.error e, s') => (.error e, s')

/-- The `stakeNodes` endpoint (`v0_4`, with revert-on-error). -/
def stakeNodesEp (keys : List Nat) : V04State → Except String OutCallV × V04State :=
  runEp (rawStakeNodes keys)

/-- `auction_stake_callback_ok` (`v0_4`): empty subset is a silent no-op;
otherwise confirm the matching stake into the Active bucket, set each node
`Active`, and emit one success event. -/
def auctionStakeCallbackOk (ids : List Nat) (s : V04State) :
    Except String Unit × V04State :=
  if ids.isEmpty then (.ok (), s)
  else
    let t := activateFinishOkTransf (ids.length * s.stakePerNode) s.funds
    (.ok (), addEvent (setStates { s with funds := t.1 } ids .Active) .activationOk)

/-- `auction_stake_callback_fail` (`v0_4`): empty subset is a silent no-op;
otherwise revert the matching ledger stake, set each node
`ActivationFailed`, and emit one failure event carrying the message. -/
def auctionStakeCallbackFail (ids : List Nat) (msg : String) (s : V04State) :
    Except String Unit × V04State :=
  if ids.isEmpty then (.ok (), s)
  else
    let t := activateFinishFailTransf (ids.length * s.stakePerNode) s.funds
    (.ok (), addEvent (setStates { s with funds := t.1 } ids .ActivationFailed)
      (.activationFail msg))

/-- `auction_stake_callback` (`v0_4`). -/
def auctionStakeCallback (ids : List Nat) (res : AsyncCallResult (List Nat))
    (s : V04State) : Except String Unit × V04State :=
  match res with
  | .ok statuses =>
    let p := splitNodeIdsByErr ids statuses
    match auctionStakeCallbackOk p.1 s with
    | (.ok _, s') => auctionStakeCallbackFail p.2 "staking failed for some nodes" s'
    | (.error e, s') => (.error e, s')
  | .err msg => auctionStakeCallbackFail ids msg s

/-- `auction_unstake_callback_ok` (`v0_4`): confirm the matching stake into
the bucket awaiting unbond, set each node `UnBondPeriod` and record the
current block nonce as its unstake nonce, and emit one success event. -/
def auctionUnstakeCallbackOk (ids : List Nat) (s : V04State) :
    Except String Unit × V04State :=
  if ids.isEmpty then (.ok (), s)
  else
    let t := unstakeFinishOkTransf (ids.length * s.stakePerNode) s.blockNonce s.funds
    let s' := ids.foldl
      (fun acc n => setUnstakeNonce (setNodeState acc n .UnBondPeriod) n acc.blockNonce)
      { s with funds := t.1 }
    (.ok (), addEvent s' .deactivationOk)

/-- `auction_unstake_callback_fail` (`v0_4`): revert the matching ledger
stake to Active, revert each node to `Active`, and emit one failure event
carrying the message. -/
def auctionUnstakeCallbackFail (ids : List Nat) (msg : String) (s : V04State) :
    Except String Unit × V04State :=
  if ids.isEmpty then (.ok (), s)
  else
    let t := unstakeFinishFailTransf (ids.length * s.stakePerNode) s.funds
    (.ok (), addEvent (setStates { s with funds := t.1 } ids .Active)
      (.deactivationFail msg))

/-- `auction_unstake_callback` (`v0_4`). -/
def auctionUnstakeCallback (ids : List Nat) (res : AsyncCallResult (List Nat))
    (s : V04State) : Except String Unit × V04State :=
  match res with
  | .ok statuses =>
    let p := splitNodeIdsByErr ids statuses
    match auctionUnstakeCallbackOk p.1 s with
    | (.ok _, s') =>
      auctionUnstakeCallbackFail p.2 "unstaking failed for some nodes" s'
    | (.error e, s') => (.error e, s')
  | .err msg => auctionUnstakeCallbackFail ids msg s

/-- `perform_unbond` (`v0_4`): move `num_nodes × stake_per_node` out of the
age-eligible buckets awaiting unbond into the in-flight bucket; a positive
remainder is the business error "not enough stake in unbond period";
otherwise issue one batched unbond request. -/
def rawPerformUnbond (ids : List Nat) (keys : List Nat) (s : V04State) :
    Except String OutCallV × V04State :=
  let amt := ids.length * s.stakePerNode
  let t := unbondStartTransf s.nBlocksBeforeUnbond s.blockNonce amt s.funds
  let s' := { s with funds := t.1 }
  if t.2 > 0 then (.error "not enough stake in unbond period", s')
  else (.ok (OutCallV.unbond keys ids), s')

/-- The descending scan of `unbond_all_available` (`v0_4`): visit node ids
from the argument down to `1`; a node in `UnBondPeriod` whose unstake nonce
satisfies `current_block ≥ unstake_nonce + n_blocks_before_unbond` is set
`PendingUnBond` and selected. -/
def rawUnbondAllScan (s : V04State) : Nat → List Nat × List Nat × V04State
  | 0 => ([], [], s)
  | n + 1 =>
    if s.nodeState (n + 1) = VNodeState.UnBondPeriod then
      if s.blockNonce ≥ s.unstakeNonce (n + 1) + s.nBlocksBeforeUnbond then
        let s' := setNodeState s (n + 1) .PendingUnBond
        let r := rawUnbondAllScan s' n
        ((n + 1) :: r.1, s'.idToKey (n + 1) :: r.2.1, r.2.2)
      else rawUnbondAllScan s n
    else rawUnbondAllScan s n

/-- `unbond_all_available` (`v0_4`, raw body): the descending scan from
`num_nodes`; when nothing was selected the command is a no-op success,
otherwise `perform_unbond` runs on the selection. -/
def rawUnbondAllAvailable (s : V04State) :
    Except String (Option OutCallV) × V04State :=
  let r := rawUnbondAllScan s s.numNodes
  if r.1.isEmpty then (.ok none, r.2.2)
  else
    match rawPerformUnbond r.1 r.2.1 r.2.2 with
    | (.ok c, s') => (.ok (some c), s')
    | (.error e, s') => (.error e, s')

/-- `auction_unbond_callback_ok` (`v0_4`): empty subset is a silent no-op;
otherwise set each node `Inactive` and clear its unstake nonce, confirm the
matching stake into the free bucket (a positive remainder aborts with
"not enough stake pending unbond"), and emit one success event. -/
def auctionUnbondCallbackOk (ids : List Nat) (s : V04State) :
    Except String Unit × V04State :=
  if ids.isEmpty then (.ok (), s)
  else
    let s1 := ids.foldl
      (fun acc n => setUnstakeNonce (setNodeState acc n .Inactive) n 0) s
    let t := unbondFinishOkTransf (ids.length * s.stakePerNode) s1.funds
    let s2 := { s1 with funds := t.1 }
    if t.2 > 0 then (.error "not enough stake pending unbond", s2)
    else (.ok (), addEvent s2 .unbondOk)

/-- `auction_unbond_callback_fail` (`v0_4`): empty subset is a silent no-op;
otherwise revert the matching ledger stake to the bucket awaiting unbond,
revert each node to `UnBondPeriod` — unconditionally, with no check that it
was `PendingUnBond` — and emit one failure event carrying the message. -/
def auctionUnbondCallbackFail (ids : List Nat) (msg : String) (s : V04State) :
    Except String Unit × V04State :=
  if ids.isEmpty then (.ok (), s)
  else
    let t := unbondFinishFailTransf s.blockNonce (ids.length * s.stakePerNode) s.funds
    (.ok (), addEvent (setStates { s with funds := t.1 } ids .UnBondPeriod)
      (.unbondFail msg))

/-- `auction_unbond_callback` (`v0_4`). -/
def auctionUnbondCallback (ids : List Nat) (res : AsyncCallResult (List Nat))
    (s : V04State) : Except String Unit × V04State :=
  match res with
  | .ok statuses =>
    let p := splitNodeIdsByErr ids statuses
    match auctionUnbondCallbackOk p.1 s with
    | (.ok _, s') => auctionUnbondCallbackFail p.2 "unbonding failed for some nodes" s'
    | (.error e, s') => (.error e, s')
  | .err msg => auctionUnbondCallbackFail ids msg s

/-- The total stake currently held in age-eligible buckets awaiting unbond:
the source availability for `unbond_start_transf` as invoked by
`perform_unbond`. -/
def eligibleUnbondSum (s : V04State) : Nat :=
  pickSum (unbondEligible s.nBlocksBeforeUnbond s.blockNonce) s.funds

end V04

/-- A base `latest` state: all nodes inactive, all keys unknown, all guards
passing. -/
def baseL : Latest.LatestState where
  nodeState := fun _ => .Inactive
  nodeKey := fun _ => 0
  nodeSig := fun _ => 0
  idToKey := fun _ => 0
  numNodes := 0
  callerIsOwner := true
  bootstrapMode := false
  globalOpInProgress := false
  totalUnprotected := 100
  ownerStakeShareOk := true
  blockNonce := 40
  events := []

/-- A `latest` state with node `1` pending activation, reachable through key
`5`. -/
def stPend : Latest.LatestState :=
  { baseL with
    nodeState := fun n => if n = 1 then .PendingActivation else .Inactive
    nodeKey := fun k => if k = 5 then 1 else 0 }

/-- A `latest` state where key `1` resolves to node `1` (inactive) and key
`2` is unknown. -/
def stC3 : Latest.LatestState :=
  { baseL with nodeKey := fun k => if k = 1 then 1 else 0 }

/-- A `latest` state matching the unbond scenario: two nodes in
`UnBondPeriod` started at blocks `10` and `50`, current block `100`. -/
def stC4L : Latest.LatestState :=
  { baseL with
    numNodes := 2
    blockNonce := 100
    nodeState := fun n =>
      if n = 1 then .UnBondPeriod 10
      else if n = 2 then .UnBondPeriod 50
      else .Inactive }

/-- A `latest` state with nodes `1` and `2` pending unbond, their original
start blocks `10` and `20` carried in the pending state. -/
def stPUB : Latest.LatestState :=
  { baseL with
    nodeState := fun n =>
      if n = 1 then .PendingUnBond 10
      else if n = 2 then .PendingUnBond 20
      else .Inactive }

/-- A base `v0_4` state: all nodes inactive, all keys unknown (id `0`; the
per-node storage of an unregistered node decodes to the initial `Inactive`
state), all guards passing. -/
def baseV : V04.V04State where
  nodeState := fun _ => .Inactive
  nodeKey := fun _ => 0
  nodeSig := fun _ => 0
  idToKey := fun _ => 0
  unstakeNonce := fun _ => 0
  numNodes := 0
  ownerCalled := true
  ownerStakeShareOk := true
  stakePerNode := 10
  nBlocksBeforeUnbond := 60
  blockNonce := 100
  funds := []
  events := []

/-- The `v0_4` unbond scenario state: two nodes in `UnBondPeriod` with
unstake nonces `10` and `50`, current block `100`, unbond delay `60`. -/
def stC4V : V04.V04State :=
  { baseV with
    numNodes := 2
    nodeState := fun n => if n = 1 ∨ n = 2 then .UnBondPeriod else .Inactive
    unstakeNonce := fun n => if n = 1 then 10 else if n = 2 then 50 else 0 }

/-- A `v0_4` state with node `1` in `Active` state (not pending unbond). -/
def stC5V : V04.V04State :=
  { baseV with nodeState := fun n => if n = 1 then .Active else .Inactive }

/-- A `v0_4` state whose ledger holds `30` in the in-flight
PendingActivation bucket of the pool-wide owner `0`. -/
def stC6V : V04.V04State :=
  { baseV with funds := [⟨0, .PendingActivation, 30⟩] }

/-- A `v0_4` state with a ledger holding free stake and no registered key:
every key resolves to id `0`. -/
def stC7V : V04.V04State :=
  { baseV with funds := [⟨0, .Inactive, 100⟩] }

theorem pickSum_nil {δ : Type} (p : Bucket δ → Bool) : pickSum p [] = 0 := rfl

theorem pickSum_cons {δ : Type} (p : Bucket δ → Bool) (b : Bucket δ)
    (l : List (Bucket δ)) :
    pickSum p (b :: l) = (if p b then b.amount else 0) + pickSum p l := by
  simp only [pickSum, List.foldr_cons]
  split <;> omega

theorem pickSum_cons_pos {δ : Type} (p : Bucket δ → Bool) (b : Bucket δ)
    (l : List (Bucket δ)) (h : p b = true) :
    pickSum p (b :: l) = b.amount + pickSum p l := by
  rw [pickSum_cons, if_pos h]

theorem pickSum_cons_neg {δ : Type} (p : Bucket δ → Bool) (b : Bucket δ)
    (l : List (Bucket δ)) (h : p b = false) :
    pickSum p (b :: l) = pickSum p l := by
  rw [pickSum_cons, if_neg (by simp [h]), Nat.zero_add]

theorem pickSum_append {δ : Type} (p : Bucket δ → Bool) (l₁ l₂ : List (Bucket δ)) :
    pickSum p (l₁ ++ l₂) = pickSum p l₁ + pickSum p l₂ := by
  induction l₁ with
  | nil => simp [pickSum_nil, pickSum]
  | cons b l ih =>
    simp only [List.cons_append, pickSum_cons, ih]
    omega

theorem moveAmt_le {optMax : Option Nat} {a : Nat} : moveAmt optMax a ≤ a := by
  cases optMax with
  | none => exact Nat.le_refl a
  | some m => exact Nat.min_le_right m a

/-- Conservation of the split-convert primitive: for every owner, the total
amount over all bucket kinds is unchanged — conversion only relabels value. -/
theorem splitConvertMax_userSum {δ : Type} (pick : Bucket δ → Bool)
    (mapper : Bucket δ → Option δ) (u : Nat) :
    ∀ (optMax : Option Nat) (funds : List (Bucket δ)),
      userSum u (splitConvertMax pick mapper optMax funds).funds = userSum u funds := by
  intro optMax funds
  induction funds generalizing optMax with
  | nil => rfl
  | cons b rest ih =>
    simp only [splitConvertMax]
    by_cases hp : pick b
    · simp only [hp, if_true]
      cases hm : mapper b with
      | none =>
        simp only [userSum] at ih ⊢
        simp [pickSum_cons, ih]
      | some nd =>
        by_cases hz : moveAmt optMax b.amount = 0
        · simp only [hz, if_pos rfl]
          simp only [userSum] at ih ⊢
          simp [pickSum_cons, ih]
        · simp only [if_neg hz]
          have hle : moveAmt optMax b.amount ≤ b.amount := moveAmt_le
          simp only [userSum] at ih ⊢
          by_cases hres : b.amount - moveAmt optMax b.amount = 0
          · rw [if_pos hres]
            have heq : moveAmt optMax b.amount = b.amount := by omega
            simp only [List.nil_append, pickSum_cons, ih, heq]
          · rw [if_neg hres]
            simp only [List.cons_append, List.nil_append, pickSum_cons, ih]
            all_goals split <;> omega
    · simp only [hp, if_false, Bool.false_eq_true]
      simp only [userSum] at ih ⊢
      simp [pickSum_cons, ih]

/-- With nothing left to convert, the scan leaves the ledger untouched. -/
theorem splitConvertMax_zero {δ : Type} (pick : Bucket δ → Bool)
    (mapper : Bucket δ → Option δ) :
    ∀ funds, splitConvertMax pick mapper (some 0) funds = ⟨funds, some 0, []⟩ := by
  intro funds
  induction funds with
  | nil => rfl
  | cons b rest ih =>
    simp only [splitConvertMax]
    by_cases hp : pick b
    · simp only [hp, if_true]
      cases hm : mapper b with
      | none => simp [ih]
      | some nd =>
        have hz : moveAmt (some 0) b.amount = 0 := by simp [moveAmt]
        simp [hz, ih]
    · simp [hp, ih]

/-- The reported remainder of a bounded scan whose mapper accepts every
picked bucket: exactly the requested amount minus what was available. -/
theorem splitConvertMax_rem {δ : Type} (pick : Bucket δ → Bool)
    (mapper : Bucket δ → Option δ)
    (hm : ∀ b, pick b = true → (mapper b).isSome = true) :
    ∀ (m : Nat) (funds : List (Bucket δ)),
      (splitConvertMax pick mapper (some m) funds).rem
        = some (m - min m (pickSum pick funds)) := by
  intro m funds
  induction funds generalizing m with
  | nil => simp [splitConvertMax, pickSum_nil]
  | cons b rest ih =>
    simp only [splitConvertMax]
    by_cases hp : pick b
    · have hsome := hm b hp
      cases hmb : mapper b with
      | none => rw [hmb] at hsome; simp at hsome
      | some nd =>
        simp only [hp, if_true, hmb]
        rw [pickSum_cons_pos pick b rest hp]
        by_cases hz : moveAmt (some m) b.amount = 0
        · rw [if_pos hz]
          have hmin : min m b.amount = 0 := hz
          simp only [ih]
          congr 1
          omega
        · rw [if_neg hz]
          have ht : moveAmt (some m) b.amount = min m b.amount := rfl
          simp only [Option.map_some', ht, ih]
          congr 1
          have hle : min m b.amount ≤ b.amount := Nat.min_le_right m b.amount
          have hle2 : min m b.amount ≤ m := Nat.min_le_left m b.amount
          omega
    · have hp' : pick b = false := by simpa using hp
      rw [pickSum_cons_neg pick b rest hp']
      simp only [hp', Bool.false_eq_true, if_false, ih]

/-- A bounded scan with a constant destination kind `d0` not selected by the
source predicate `q` moves `min m available` out of the `q`-buckets and into
the `d0`-buckets: the two kind totals change by exactly the moved amount. -/
theorem splitConvertMax_kindSum {δ : Type} [DecidableEq δ] (q : δ → Bool)
    (d0 : δ) (hq : q d0 = false) :
    ∀ (m : Nat) (funds : List (Bucket δ)),
      pickSum (fun b => q b.desc)
          ((splitConvertMax (fun b => q b.desc) (fun _ => some d0) (some m) funds).funds)
        = pickSum (fun b => q b.desc) funds
            - min m (pickSum (fun b => q b.desc) funds)
      ∧ pickSum (fun b => decide (b.desc = d0))
          ((splitConvertMax (fun b => q b.desc) (fun _ => some d0) (some m) funds).funds)
        = pickSum (fun b => decide (b.desc = d0)) funds
            + min m (pickSum (fun b => q b.desc) funds) := by
  intro m funds
  induction funds generalizing m with
  | nil => simp [splitConvertMax, pickSum_nil]
  | cons b rest ih =>
    have hpq : ∀ nd t, (fun x : Bucket δ => q x.desc) (⟨b.user, nd, t⟩ : Bucket δ) = q nd :=
      fun _ _ => rfl
    have hpd : ∀ nd t, (fun x : Bucket δ => decide (x.desc = d0)) (⟨b.user, nd, t⟩ : Bucket δ)
        = decide (nd = d0) := fun _ _ => rfl
    simp only [splitConvertMax]
    by_cases hp : (fun x : Bucket δ => q x.desc) b = true
    · have hpb : q b.desc = true := hp
      have hbd : decide (b.desc = d0) = false := by
        simp only [decide_eq_false_iff_not]
        intro h
        rw [h, hq] at hpb
        exact Bool.false_ne_true hpb
      simp only [hp, if_true]
      rw [pickSum_cons_pos _ b rest hp,
        pickSum_cons_neg (fun x => decide (x.desc = d0)) b rest hbd]
      by_cases hz : moveAmt (some m) b.amount = 0
      · rw [if_pos hz]
        dsimp only
        have hmin : min m b.amount = 0 := hz
        rcases Nat.min_eq_zero_iff.mp hmin with h0 | h0
        · subst h0
          rw [splitConvertMax_zero]
          dsimp only
          rw [pickSum_cons_pos _ b rest hp,
            pickSum_cons_neg (fun x => decide (x.desc = d0)) b rest hbd]
          omega
        · obtain ⟨ihq, ihd⟩ := ih m
          constructor
          · rw [pickSum_cons_pos _ b _ hp, ihq]
            omega
          · rw [pickSum_cons_neg (fun x => decide (x.desc = d0)) b _ hbd, ihd]
            omega
      · rw [if_neg hz]
        dsimp only
        have ht : moveAmt (some m) b.amount = min m b.amount := rfl
        have hle : min m b.amount ≤ b.amount := Nat.min_le_right m b.amount
        have hle2 : min m b.amount ≤ m := Nat.min_le_left m b.amount
        obtain ⟨ihq, ihd⟩ := ih (m - moveAmt (some m) b.amount)
        have hnewq : (fun x : Bucket δ => q x.desc)
            (⟨b.user, d0, moveAmt (some m) b.amount⟩ : Bucket δ) = false := hq
        have hnewd : (fun x : Bucket δ => decide (x.desc = d0))
            (⟨b.user, d0, moveAmt (some m) b.amount⟩ : Bucket δ) = true := by
          simp
        by_cases hres : b.amount - moveAmt (some m) b.amount = 0
        · rw [if_pos hres]
          simp only [Option.map_some', List.nil_append]
          rw [ht] at hres
          constructor
          · rw [pickSum_cons_neg _ _ _ hnewq, ihq, ht]
            try dsimp only
            omega
          · rw [pickSum_cons_pos _ _ _ hnewd, ihd, ht]
            try dsimp only
            omega
        · rw [if_neg hres]
          simp only [Option.map_some', List.cons_append, List.nil_append]
          rw [ht] at hres
          have hresq : (fun x : Bucket δ => q x.desc)
              (⟨b.user, b.desc, b.amount - moveAmt (some m) b.amount⟩ : Bucket δ) = true := hpb
          have hresd : (fun x : Bucket δ => decide (x.desc = d0))
              (⟨b.user, b.desc, b.amount - moveAmt (some m) b.amount⟩ : Bucket δ) = false := hbd
          constructor
          · rw [pickSum_cons_pos _ _ _ hresq, pickSum_cons_neg _ _ _ hnewq, ihq, ht]
            try dsimp only
            omega
          · rw [pickSum_cons_neg _ _ _ hresd, pickSum_cons_pos _ _ _ hnewd, ihd, ht]
            try dsimp only
            omega
    · have hp' : (fun x : Bucket δ => q x.desc) b = false := by simpa using hp
      simp only [hp', Bool.false_eq_true, if_false]
      try dsimp only
      obtain ⟨ihq, ihd⟩ := ih m
      rw [pickSum_cons_neg (fun x => q x.desc) b rest hp']
      constructor
      · rw [pickSum_cons_neg (fun x => q x.desc) b
            (splitConvertMax (fun x => q x.desc) (fun _ => some d0) (some m) rest).funds hp',
          ihq]
      · by_cases hbd : (fun x : Bucket δ => decide (x.desc = d0)) b = true
        · rw [pickSum_cons_pos (fun x => decide (x.desc = d0)) b rest hbd,
            pickSum_cons_pos (fun x => decide (x.desc = d0)) b
              (splitConvertMax (fun x => q x.desc) (fun _ => some d0) (some m) rest).funds hbd,
            ihd]
          omega
        · have hbd' : (fun x : Bucket δ => decide (x.desc = d0)) b = false := by
            simpa using hbd
          rw [pickSum_cons_neg (fun x => decide (x.desc = d0)) b rest hbd',
            pickSum_cons_neg (fun x => decide (x.desc = d0)) b
              (splitConvertMax (fun x => q x.desc) (fun _ => some d0) (some m) rest).funds hbd',
            ihd]

/-- An endpoint that returns an error leaves the state exactly as it was. -/
theorem runEp_err {σ α : Type} (f : σ → Except String α × σ) (s : σ)
    (h : isErr (runEp f s).1 = true) : (runEp f s).2 = s := by
  unfold runEp at h ⊢
  rcases hf : f s with ⟨r, s'⟩
  cases r with
  | ok a => rw [hf] at h; simp [isErr] at h
  | error e => rfl

/-- Membership in the descending id list. -/
theorem descList_mem : ∀ (N n : Nat), n ∈ descList N ↔ 1 ≤ n ∧ n ≤ N := by
  intro N
  induction N with
  | zero => intro n; simp [descList]; omega
  | succ N ih =>
    intro n
    simp only [descList, List.mem_cons, ih]
    omega

namespace Latest

theorem setNodeState_nodeState (s : LatestState) (n : Nat) (st : NodeState)
    (m : Nat) :
    (setNodeState s n st).nodeState m = if m = n then st else s.nodeState m := rfl

theorem setNodeState_events (s : LatestState) (n : Nat) (st : NodeState) :
    (setNodeState s n st).events = s.events := rfl

theorem setNodeState_nodeKey (s : LatestState) (n : Nat) (st : NodeState) :
    (setNodeState s n st).nodeKey = s.nodeKey := rfl

theorem setStates_nodeState (st : NodeState) :
    ∀ (ids : List Nat) (s : LatestState) (m : Nat),
      (setStates s ids st).nodeState m = if m ∈ ids then st else s.nodeState m := by
  intro ids
  induction ids with
  | nil => intro s m; simp [setStates]
  | cons a tl ih =>
    intro s m
    show (setStates (setNodeState s a st) tl st).nodeState m = _
    rw [ih]
    by_cases hm : m ∈ tl
    · simp [hm]
    · by_cases ha : m = a
      · simp [hm, ha, setNodeState_nodeState]
      · simp [hm, ha, setNodeState_nodeState]

theorem setStates_events (st : NodeState) :
    ∀ (ids : List Nat) (s : LatestState), (setStates s ids st).events = s.events := by
  intro ids
  induction ids with
  | nil => intro s; rfl
  | cons a tl ih =>
    intro s
    show (setStates (setNodeState s a st) tl st).events = _
    rw [ih, setNodeState_events]

/-- If some key of the list is unknown or resolves to a node that is not
`Inactive`, the stake loop fails (the mutations of earlier iterations only
turn `Inactive` nodes into `PendingActivation`, so they cannot make a
non-`Inactive` node acceptable). -/
theorem rawStakeLoop_err :
    ∀ (keys ids : List Nat) (pairs : List (Nat × Nat)) (s : LatestState),
      (∃ k ∈ keys, s.nodeKey k = 0 ∨ s.nodeState (s.nodeKey k) ≠ NodeState.Inactive) →
      isErr (rawStakeLoop keys ids pairs s).1 = true := by
  intro keys
  induction keys with
  | nil =>
    rintro ids pairs s ⟨k, hk, _⟩
    exact absurd hk (List.not_mem_nil k)
  | cons k0 rest ih =>
    rintro ids pairs s ⟨k, hk, hcond⟩
    simp only [rawStakeLoop]
    by_cases h0 : s.nodeKey k0 = 0
    · simp [h0, isErr]
    · rw [if_neg h0]
      by_cases hs : s.nodeState (s.nodeKey k0) = NodeState.Inactive
      · rw [if_neg (not_not_intro hs)]
        apply ih
        rcases List.mem_cons.mp hk with rfl | hkr
        · rcases hcond with h | h
          · exact absurd h h0
          · exact absurd hs h
        · refine ⟨k, hkr, ?_⟩
          rcases hcond with h | h
          · exact Or.inl h
          · right
            show (setNodeState s (s.nodeKey k0) .PendingActivation).nodeState
              (s.nodeKey k) ≠ NodeState.Inactive
            rw [setNodeState_nodeState]
            by_cases he : s.nodeKey k = s.nodeKey k0
            · simp [he]
            · simpa [he] using h
      · rw [if_pos hs]
        simp [isErr]

/-- When the stake loop succeeds, the collected ids are the resolutions of
the keys in order, and every collected node ends up `PendingActivation`. -/
theorem rawStakeLoop_ok :
    ∀ (keys ids : List Nat) (pairs : List (Nat × Nat)) (s : LatestState)
      (ids' : List Nat) (pairs' : List (Nat × Nat)) (s' : LatestState),
      rawStakeLoop keys ids pairs s = (.ok (ids', pairs'), s') →
      (∀ n ∈ ids, s.nodeState n = NodeState.PendingActivation) →
      ids' = ids ++ keys.map s.nodeKey ∧
        ∀ n ∈ ids', s'.nodeState n = NodeState.PendingActivation := by
  intro keys
  induction keys with
  | nil =>
    intro ids pairs s ids' pairs' s' heq hpend
    simp only [rawStakeLoop, Prod.mk.injEq] at heq
    obtain ⟨h1, h2⟩ := heq
    cases h1
    subst h2
    simpa using hpend
  | cons k0 rest ih =>
    intro ids pairs s ids' pairs' s' heq hpend
    simp only [rawStakeLoop] at heq
    by_cases h0 : s.nodeKey k0 = 0
    · rw [if_pos h0] at heq
      simp at heq
    · rw [if_neg h0] at heq
      by_cases hs : s.nodeState (s.nodeKey k0) = NodeState.Inactive
      · rw [if_neg (not_not_intro hs)] at heq
        have hpend2 : ∀ n ∈ ids ++ [s.nodeKey k0],
            (setNodeState s (s.nodeKey k0) .PendingActivation).nodeState n
              = NodeState.PendingActivation := by
          intro n hn
          rw [setNodeState_nodeState]
          rcases List.mem_append.mp hn with hn | hn
          · by_cases he : n = s.nodeKey k0
            · simp [he]
            · simpa [he] using hpend n hn
          · simp only [List.mem_singleton] at hn
            simp [hn]
        obtain ⟨ha, hb⟩ := ih _ _ _ _ _ _ heq hpend2
        constructor
        · rw [ha, setNodeState_nodeKey]
          simp
        · exact hb
      · rw [if_pos hs] at heq
        simp at heq

/-- If some targeted node is not `Active`, the unstake loop fails. -/
theorem rawPerformUnstakeLoop_err :
    ∀ (ids : List Nat) (s : LatestState) (n : Nat),
      n ∈ ids → s.nodeState n ≠ NodeState.Active →
      isErr (rawPerformUnstakeLoop ids s).1 = true := by
  intro ids
  induction ids with
  | nil => intro s n hn; exact absurd hn (List.not_mem_nil n)
  | cons a tl ih =>
    intro s n hn hns
    simp only [rawPerformUnstakeLoop]
    by_cases hsa : s.nodeState a = NodeState.Active
    · rw [if_neg (not_not_intro hsa)]
      rcases List.mem_cons.mp hn with rfl | hn'
      · exact absurd hsa hns
      · apply ih _ n hn'
        rw [setNodeState_nodeState]
        by_cases he : n = a
        · simp [he]
        · simpa [he] using hns
    · rw [if_pos hsa]
      simp [isErr]

/-- A pending node is never selected (nor touched) by
`prepare_node_for_unbond_if_possible`. -/
theorem prepare_pending_not_selected (s : LatestState) (n : Nat)
    (h : (s.nodeState n).isPending = true) :
    prepareNodeForUnbondIfPossible s n = (false, s) := by
  unfold prepareNodeForUnbondIfPossible
  cases hst : s.nodeState n <;> simp [NodeState.isPending, hst] at h ⊢

/-- The ids selected by the descending unbond scan of the `latest` variant:
exactly the nodes in `UnBondPeriod`, in descending order — with no
elapsed-time condition. -/
theorem unbondScan_sel :
    ∀ (N : Nat) (s : LatestState),
      (unbondScan s N).1
        = (descList N).filter (fun n => (s.nodeState n).isUnBondPeriod) := by
  intro N
  induction N with
  | zero => intro s; rfl
  | succ N ih =>
    intro s
    simp only [unbondScan]
    cases hst : s.nodeState (N + 1)
    case UnBondPeriod started =>
      rw [show prepareNodeForUnbondIfPossible s (N + 1)
          = (true, setNodeState s (N + 1) (.PendingUnBond started)) from by
        unfold prepareNodeForUnbondIfPossible; rw [hst]]
      dsimp only
      have hcond : (s.nodeState (N + 1)).isUnBondPeriod = true := by
        rw [hst]; rfl
      have hagree : ∀ n ∈ descList N,
          ((setNodeState s (N + 1) (.PendingUnBond started)).nodeState n).isUnBondPeriod
            = (s.nodeState n).isUnBondPeriod := by
        intro n hn
        have := (descList_mem N n).mp hn
        rw [setNodeState_nodeState, if_neg (by omega)]
      rw [ih, List.filter_congr hagree]
      simp [descList, List.filter_cons, hcond]
    all_goals {
      rw [show prepareNodeForUnbondIfPossible s (N + 1) = (false, s) from by
        unfold prepareNodeForUnbondIfPossible; rw [hst]]
      have hcond : (s.nodeState (N + 1)).isUnBondPeriod = false := by
        rw [hst]; rfl
      simp [descList, List.filter_cons, hcond, ih] }

/-- The revert loop of the unbond failure callback: with distinct node ids,
all in `PendingUnBond`, it succeeds, restores each to `UnBondPeriod` with
the carried start block, and touches no other node (and no event). -/
theorem revertUnbondLoop_ok :
    ∀ (ids : List Nat) (s : LatestState),
      ids.Nodup →
      (∀ n ∈ ids, (s.nodeState n).isPendingUnBond = true) →
      (revertUnbondLoop ids s).1 = .ok () ∧
      (∀ n ∈ ids, (revertUnbondLoop ids s).2.nodeState n
          = NodeState.UnBondPeriod ((s.nodeState n).carriedNonce)) ∧
      (∀ m, m ∉ ids → (revertUnbondLoop ids s).2.nodeState m = s.nodeState m) ∧
      (revertUnbondLoop ids s).2.events = s.events := by
  intro ids
  induction ids with
  | nil =>
    intro s _ _
    refine ⟨rfl, ?_, fun m _ => rfl, rfl⟩
    intro n hn
    exact absurd hn (List.not_mem_nil n)
  | cons a tl ih =>
    intro s hnd hpend
    have ha := hpend a (List.mem_cons_self a tl)
    cases hsa : s.nodeState a with
    | PendingUnBond u =>
      simp only [revertUnbondLoop, hsa]
      have hnd' := (List.nodup_cons.mp hnd)
      have hpend2 : ∀ n ∈ tl,
          ((setNodeState s a (.UnBondPeriod u)).nodeState n).isPendingUnBond = true := by
        intro n hn
        rw [setNodeState_nodeState, if_neg (by rintro rfl; exact hnd'.1 hn)]
        exact hpend n (List.mem_cons_of_mem a hn)
      obtain ⟨hok, hin, hout, hev⟩ := ih _ hnd'.2 hpend2
      refine ⟨hok, ?_, ?_, ?_⟩
      · intro n hn
        rcases List.mem_cons.mp hn with rfl | hn'
        · rw [hout n hnd'.1, setNodeState_nodeState, if_pos rfl, hsa]
          rfl
        · rw [hin n hn', setNodeState_nodeState,
            if_neg (by rintro rfl; exact hnd'.1 hn')]
      · intro m hm
        have hm' : m ∉ tl := fun h => hm (List.mem_cons_of_mem a h)
        have hma : ¬ (m = a) := fun h => hm (h ▸ List.mem_cons_self a tl)
        rw [hout m hm', setNodeState_nodeState, if_neg hma]
      · rw [hev, setNodeState_events]
    | Inactive => simp [NodeState.isPendingUnBond, hsa] at ha
    | PendingActivation => simp [NodeState.isPendingUnBond, hsa] at ha
    | Active => simp [NodeState.isPendingUnBond, hsa] at ha
    | PendingDeactivation => simp [NodeState.isPendingUnBond, hsa] at ha
    | UnBondPeriod u => simp [NodeState.isPendingUnBond, hsa] at ha

/-- If some listed node is not in `PendingUnBond`, the revert loop aborts
with an error. -/
theorem revertUnbondLoop_err :
    ∀ (ids : List Nat) (s : LatestState) (n : Nat),
      n ∈ ids → (s.nodeState n).isPendingUnBond = false →
      isErr (revertUnbondLoop ids s).1 = true := by
  intro ids
  induction ids with
  | nil => intro s n hn; exact absurd hn (List.not_mem_nil n)
  | cons a tl ih =>
    intro s n hn hns
    cases hsa : s.nodeState a with
    | PendingUnBond u =>
      simp only [revertUnbondLoop, hsa]
      rcases List.mem_cons.mp hn with rfl | hn'
      · rw [hsa] at hns
        simp [NodeState.isPendingUnBond] at hns
      · apply ih _ n hn'
        rw [setNodeState_nodeState]
        by_cases he : n = a
        · subst he
          rw [if_pos rfl]
          rfl
        · rw [if_neg he]
          exact hns
    | Inactive => simp [revertUnbondLoop, hsa, isErr]
    | PendingActivation => simp [revertUnbondLoop, hsa, isErr]
    | Active => simp [revertUnbondLoop, hsa, isErr]
    | PendingDeactivation => simp [revertUnbondLoop, hsa, isErr]
    | UnBondPeriod u => simp [revertUnbondLoop, hsa, isErr]

end Latest

namespace V04

theorem setNodeState_nodeStateV (s : V04State) (n : Nat) (st : VNodeState)
    (m : Nat) :
    (setNodeState s n st).nodeState m = if m = n then st else s.nodeState m := rfl

theorem setNodeState_eventsV (s : V04State) (n : Nat) (st : VNodeState) :
    (setNodeState s n st).events = s.events := rfl

theorem setStates_nodeStateV (st : VNodeState) :
    ∀ (ids : List Nat) (s : V04State) (m : Nat),
      (setStates s ids st).nodeState m = if m ∈ ids then st else s.nodeState m := by
  intro ids
  induction ids with
  | nil => intro s m; simp [setStates]
  | cons a tl ih =>
    intro s m
    show (setStates (setNodeState s a st) tl st).nodeState m = _
    rw [ih]
    by_cases hm : m ∈ tl
    · simp [hm]
    · by_cases ha : m = a
      · simp [hm, ha, setNodeState_nodeStateV]
      · simp [hm, ha, setNodeState_nodeStateV]

/-- Folding any event-preserving per-node update over a list of node ids
preserves the event log. -/
theorem foldl_events (g : V04State → Nat → V04State)
    (hg : ∀ s n, (g s n).events = s.events) :
    ∀ (ids : List Nat) (s : V04State), (ids.foldl g s).events = s.events := by
  intro ids
  induction ids with
  | nil => intro s; rfl
  | cons a tl ih =>
    intro s
    show (tl.foldl g (g s a)).events = _
    rw [ih, hg]

theorem setStates_eventsV (st : VNodeState) (ids : List Nat) (s : V04State) :
    (setStates s ids st).events = s.events :=
  foldl_events (fun acc n => setNodeState acc n st) (fun _ _ => rfl) ids s

/-- The ids selected by the descending unbond scan of `v0_4`: exactly the
nodes in `UnBondPeriod` whose elapsed blocks since their recorded unstake
nonce reach the configured delay (`current ≥ started + delay`), in
descending order. -/
theorem rawUnbondAllScan_sel :
    ∀ (N : Nat) (s : V04State),
      (rawUnbondAllScan s N).1
        = (descList N).filter (fun n =>
            decide (s.nodeState n = VNodeState.UnBondPeriod) &&
            decide (s.blockNonce ≥ s.unstakeNonce n + s.nBlocksBeforeUnbond)) := by
  intro N
  induction N with
  | zero => intro s; rfl
  | succ N ih =>
    intro s
    simp only [rawUnbondAllScan]
    by_cases hst : s.nodeState (N + 1) = VNodeState.UnBondPeriod
    · rw [if_pos hst]
      by_cases hbl : s.blockNonce ≥ s.unstakeNonce (N + 1) + s.nBlocksBeforeUnbond
      · rw [if_pos hbl]
        dsimp only
        have hagree : ∀ n ∈ descList N,
            (decide ((setNodeState s (N + 1) .PendingUnBond).nodeState n
                = VNodeState.UnBondPeriod) &&
             decide ((setNodeState s (N + 1) .PendingUnBond).blockNonce
                ≥ (setNodeState s (N + 1) .PendingUnBond).unstakeNonce n
                  + (setNodeState s (N + 1) .PendingUnBond).nBlocksBeforeUnbond))
              = (decide (s.nodeState n = VNodeState.UnBondPeriod) &&
                 decide (s.blockNonce ≥ s.unstakeNonce n + s.nBlocksBeforeUnbond)) := by
          intro n hn
          have := (descList_mem N n).mp hn
          rw [setNodeState_nodeStateV, if_neg (by omega)]
          rfl
        have hcond : (decide (s.nodeState (N + 1) = VNodeState.UnBondPeriod) &&
            decide (s.blockNonce ≥ s.unstakeNonce (N + 1) + s.nBlocksBeforeUnbond))
              = true := by
          simp [hst, hbl]
        rw [ih, List.filter_congr hagree]
        simp [descList, List.filter_cons, hcond]
      · rw [if_neg hbl]
        have hcond : (decide (s.nodeState (N + 1) = VNodeState.UnBondPeriod) &&
            decide (s.blockNonce ≥ s.unstakeNonce (N + 1) + s.nBlocksBeforeUnbond))
              = false := by
          simp [hst, hbl]
        simp [descList, List.filter_cons, hcond, ih]
    · rw [if_neg hst]
      have hcond : (decide (s.nodeState (N + 1) = VNodeState.UnBondPeriod) &&
          decide (s.blockNonce ≥ s.unstakeNonce (N + 1) + s.nBlocksBeforeUnbond))
            = false := by
        simp [hst]
      simp [descList, List.filter_cons, hcond, ih]

end V04

/-- C1: every fund transformation operation — `swap_waiting_to_active`,
`swap_active_to_unstaked`, `swap_unstaked_to_deferred_payment`,
`unstake_transf`, `claim_all_eligible_deferred_payments` — leaves the sum of
every owner's bucket amounts over all bucket kinds unchanged:
transformations only relabel value between kinds, never create or destroy
it. -/
theorem c1_fund_transformations_conserve_user_totals (u : Nat) :
    (∀ userId amount blockNonce funds,
      userSum u (FundTransf.unstake_transf userId amount blockNonce funds).2
        = userSum u funds)
    ∧ (∀ amount funds,
      userSum u (FundTransf.swap_waiting_to_active amount funds).2.2
        = userSum u funds)
    ∧ (∀ amount blockNonce funds,
      userSum u (FundTransf.swap_active_to_unstaked amount blockNonce funds).2.2
        = userSum u funds)
    ∧ (∀ amount funds,
      userSum u (FundTransf.swap_unstaked_to_deferred_payment amount funds).2
        = userSum u funds)
    ∧ (∀ userId nBlocks blockNonce funds,
      userSum u
          (FundTransf.claim_all_eligible_deferred_payments userId nBlocks blockNonce funds)
        = userSum u funds) := by
  refine ⟨?_, ?_, ?_, ?_, ?_⟩
  · intro userId amount blockNonce funds
    unfold FundTransf.unstake_transf
    dsimp only
    split <;> exact splitConvertMax_userSum _ _ u (some amount) funds
  · intro amount funds
    exact splitConvertMax_userSum _ _ u (some amount) funds
  · intro amount blockNonce funds
    exact splitConvertMax_userSum _ _ u (some amount) funds
  · intro amount funds
    exact splitConvertMax_userSum _ _ u (some amount) funds
  · intro userId nBlocks blockNonce funds
    exact splitConvertMax_userSum _ _ u none funds

/-- C9: the amount an amount-bounded conversion could not convert is
reported back as the remainder, and a positive remainder is turned into a
business-rule error by the caller — `unstake_transf` fails with
"cannot offer more than the user active stake" exactly when the requested
amount exceeds the user's Active stake, `v0_4` `perform_unbond` fails with
"not enough stake in unbond period" exactly when the requested amount
exceeds the age-eligible unbonding stake — and no other (ledger-level)
error can be produced. -/
theorem c9_remainder_signals_business_error :
    (∀ userId amount blockNonce funds,
      (isErr (FundTransf.unstake_transf userId amount blockNonce funds).1 = true
        ↔ amount > FundTransf.activeSumUser userId funds)
      ∧ ((FundTransf.unstake_transf userId amount blockNonce funds).1
            = .error "cannot offer more than the user active stake"
          ∨ (FundTransf.unstake_transf userId amount blockNonce funds).1 = .ok ()))
    ∧ (∀ ids keys s,
      (isErr (V04.rawPerformUnbond ids keys s).1 = true
        ↔ ids.length * s.stakePerNode > V04.eligibleUnbondSum s)
      ∧ ((V04.rawPerformUnbond ids keys s).1
            = .error "not enough stake in unbond period"
          ∨ ∃ c, (V04.rawPerformUnbond ids keys s).1 = .ok c)) := by
  constructor
  · intro userId amount blockNonce funds
    have hrem := splitConvertMax_rem
      (fun b => decide (b.user = userId ∧ b.desc.fundType = FundTransf.FundType.Active))
      (fun _ => some (.UnStaked blockNonce))
      (fun _ _ => rfl) amount funds
    have hSdef : FundTransf.activeSumUser userId funds
        = pickSum (fun b => decide (b.user = userId ∧ b.desc.fundType = FundTransf.FundType.Active))
            funds := rfl
    unfold FundTransf.unstake_transf
    dsimp only
    rw [hrem, hSdef]
    simp only [Option.getD_some]
    have hminle : min amount
          (pickSum (fun b => decide (b.user = userId ∧ b.desc.fundType = FundTransf.FundType.Active)) funds)
        ≤ pickSum (fun b => decide (b.user = userId ∧ b.desc.fundType = FundTransf.FundType.Active)) funds :=
      Nat.min_le_right _ _
    by_cases hc : amount - min amount
        (pickSum (fun b => decide (b.user = userId ∧ b.desc.fundType = FundTransf.FundType.Active)) funds) > 0
    · rw [if_pos hc]
      refine ⟨?_, Or.inl rfl⟩
      simp only [isErr, true_iff]
      omega
    · rw [if_neg hc]
      refine ⟨?_, Or.inr rfl⟩
      simp only [isErr, Bool.false_eq_true, false_iff]
      omega
  · intro ids keys s
    have hrem := splitConvertMax_rem
      (V04.unbondEligible s.nBlocksBeforeUnbond s.blockNonce)
      (fun _ => some V04.VFundDesc.PendingUnBond)
      (fun _ _ => rfl) (ids.length * s.stakePerNode) s.funds
    have hSdef : V04.eligibleUnbondSum s
        = pickSum (V04.unbondEligible s.nBlocksBeforeUnbond s.blockNonce) s.funds := rfl
    unfold V04.rawPerformUnbond V04.unbondStartTransf
    dsimp only
    rw [hrem, hSdef]
    simp only [Option.getD_some]
    have hminle : min (ids.length * s.stakePerNode)
          (pickSum (V04.unbondEligible s.nBlocksBeforeUnbond s.blockNonce) s.funds)
        ≤ pickSum (V04.unbondEligible s.nBlocksBeforeUnbond s.blockNonce) s.funds :=
      Nat.min_le_right _ _
    by_cases hc : ids.length * s.stakePerNode
        - min (ids.length * s.stakePerNode)
            (pickSum (V04.unbondEligible s.nBlocksBeforeUnbond s.blockNonce) s.funds) > 0
    · rw [if_pos hc]
      refine ⟨?_, Or.inl rfl⟩
      simp only [isErr, true_iff]
      omega
    · rw [if_neg hc]
      refine ⟨?_, Or.inr ⟨_, rfl⟩⟩
      simp only [isErr, Bool.false_eq_true, false_iff]
      omega

namespace Latest

theorem addEvent_events (s : LatestState) (e : LEvent) :
    (addEvent s e).events = s.events ++ [e] := rfl

/-- The stake success handler on a non-empty subset: succeeds, sets every
listed node `Active`, appends exactly one success event. -/
theorem auctionStakeCallbackOk_spec (ids : List Nat) (s : LatestState)
    (hne : ids.isEmpty = false) :
    (auctionStakeCallbackOk ids s).1 = .ok ()
    ∧ (∀ n ∈ ids, (auctionStakeCallbackOk ids s).2.nodeState n = NodeState.Active)
    ∧ (auctionStakeCallbackOk ids s).2.events = s.events ++ [.stakeNodeOk] := by
  unfold auctionStakeCallbackOk
  rw [if_neg (by simp [hne])]
  refine ⟨rfl, ?_, ?_⟩
  · intro n hn
    show (setStates s ids .Active).nodeState n = _
    rw [setStates_nodeState, if_pos hn]
  · show (setStates s ids NodeState.Active).events ++ _ = _
    rw [setStates_events]

/-- The stake failure handler on a non-empty subset: succeeds, reverts every
listed node to `Inactive`, appends exactly one failure event carrying the
message. -/
theorem auctionStakeCallbackFail_spec (ids : List Nat) (msg : String)
    (s : LatestState) (hne : ids.isEmpty = false) :
    (auctionStakeCallbackFail ids msg s).1 = .ok ()
    ∧ (∀ n ∈ ids, (auctionStakeCallbackFail ids msg s).2.nodeState n
        = NodeState.Inactive)
    ∧ (auctionStakeCallbackFail ids msg s).2.events
        = s.events ++ [.stakeNodeFail msg] := by
  unfold auctionStakeCallbackFail
  rw [if_neg (by simp [hne])]
  refine ⟨rfl, ?_, ?_⟩
  · intro n hn
    show (setStates s ids .Inactive).nodeState n = _
    rw [setStates_nodeState, if_pos hn]
  · show (setStates s ids NodeState.Inactive).events ++ _ = _
    rw [setStates_events]

/-- The unstake success handler on a non-empty subset. -/
theorem auctionUnstakeCallbackOk_spec (ids : List Nat) (s : LatestState)
    (hne : ids.isEmpty = false) :
    (auctionUnstakeCallbackOk ids s).1 = .ok ()
    ∧ (∀ n ∈ ids, (auctionUnstakeCallbackOk ids s).2.nodeState n
        = NodeState.UnBondPeriod s.blockNonce)
    ∧ (auctionUnstakeCallbackOk ids s).2.events = s.events ++ [.unstakeNodeOk] := by
  unfold auctionUnstakeCallbackOk
  rw [if_neg (by simp [hne])]
  refine ⟨rfl, ?_, ?_⟩
  · intro n hn
    show (setStates s ids (.UnBondPeriod s.blockNonce)).nodeState n = _
    rw [setStates_nodeState, if_pos hn]
  · show (setStates s ids (NodeState.UnBondPeriod s.blockNonce)).events ++ _ = _
    rw [setStates_events]

/-- The unstake failure handler on a non-empty subset: reverts every listed
node to `Active`, appends one failure event carrying the message. -/
theorem auctionUnstakeCallbackFail_spec (ids : List Nat) (msg : String)
    (s : LatestState) (hne : ids.isEmpty = false) :
    (auctionUnstakeCallbackFail ids msg s).1 = .ok ()
    ∧ (∀ n ∈ ids, (auctionUnstakeCallbackFail ids msg s).2.nodeState n
        = NodeState.Active)
    ∧ (auctionUnstakeCallbackFail ids msg s).2.events
        = s.events ++ [.unstakeNodeFail msg] := by
  unfold auctionUnstakeCallbackFail
  rw [if_neg (by simp [hne])]
  refine ⟨rfl, ?_, ?_⟩
  · intro n hn
    show (setStates s ids .Active).nodeState n = _
    rw [setStates_nodeState, if_pos hn]
  · show (setStates s ids NodeState.Active).events ++ _ = _
    rw [setStates_events]

/-- The unbond success handler on a non-empty subset. -/
theorem auctionUnbondCallbackOk_spec (ids : List Nat) (s : LatestState)
    (hne : ids.isEmpty = false) :
    (auctionUnbondCallbackOk ids s).1 = .ok ()
    ∧ (∀ n ∈ ids, (auctionUnbondCallbackOk ids s).2.nodeState n
        = NodeState.Inactive)
    ∧ (auctionUnbondCallbackOk ids s).2.events = s.events ++ [.unbondNodeOk] := by
  unfold auctionUnbondCallbackOk
  rw [if_neg (by simp [hne])]
  refine ⟨rfl, ?_, ?_⟩
  · intro n hn
    show (setStates s ids .Inactive).nodeState n = _
    rw [setStates_nodeState, if_pos hn]
  · show (setStates s ids NodeState.Inactive).events ++ _ = _
    rw [setStates_events]

/-- The revert loop never touches the event log. -/
theorem revertUnbondLoop_events :
    ∀ (ids : List Nat) (s : LatestState),
      (revertUnbondLoop ids s).2.events = s.events := by
  intro ids
  induction ids with
  | nil => intro s; rfl
  | cons a tl ih =>
    intro s
    cases hsa : s.nodeState a with
    | PendingUnBond u =>
      simp only [revertUnbondLoop, hsa]
      rw [ih, setNodeState_events]
    | Inactive => simp [revertUnbondLoop, hsa]
    | PendingActivation => simp [revertUnbondLoop, hsa]
    | Active => simp [revertUnbondLoop, hsa]
    | PendingDeactivation => simp [revertUnbondLoop, hsa]
    | UnBondPeriod u => simp [revertUnbondLoop, hsa]

/-- The unbond failure handler appends at most one event — exactly one when
it succeeds on a non-empty subset, none otherwise. -/
theorem auctionUnbondCallbackFail_events (ids : List Nat) (msg : String)
    (s : LatestState) :
    (auctionUnbondCallbackFail ids msg s).2.events = s.events
    ∨ (auctionUnbondCallbackFail ids msg s).2.events
        = s.events ++ [.unbondNodeFail msg] := by
  unfold auctionUnbondCallbackFail
  by_cases he : ids.isEmpty = true
  · rw [if_pos he]
    exact Or.inl rfl
  · rw [if_neg he]
    rcases hres : revertUnbondLoop ids s with ⟨r, s'⟩
    have hev : s'.events = s.events := by
      have := revertUnbondLoop_events ids s
      rw [hres] at this
      exact this
    cases r with
    | ok v =>
      right
      show (addEvent s' _).events = _
      rw [addEvent_events, hev]
    | error e =>
      left
      exact hev

end Latest

namespace V04

theorem addEvent_eventsV (s : V04State) (e : VEvent) :
    (addEvent s e).events = s.events ++ [e] := rfl

theorem setStates_funds (st : VNodeState) (ids : List Nat) (s : V04State) :
    (setStates s ids st).funds = s.funds := by
  induction ids generalizing s with
  | nil => rfl
  | cons a tl ih =>
    show (setStates (setNodeState s a st) tl st).funds = _
    rw [ih]
    rfl

theorem setStates_unstakeNonce (st : VNodeState) (ids : List Nat) (s : V04State)
    (m : Nat) :
    (setStates s ids st).unstakeNonce m = s.unstakeNonce m := by
  induction ids generalizing s with
  | nil => rfl
  | cons a tl ih =>
    show (setStates (setNodeState s a st) tl st).unstakeNonce m = _
    rw [ih]
    rfl

/-- The `v0_4` stake success handler on a non-empty subset. -/
theorem auctionStakeCallbackOk_specV (ids : List Nat) (s : V04State)
    (hne : ids.isEmpty = false) :
    (auctionStakeCallbackOk ids s).1 = .ok ()
    ∧ (∀ n ∈ ids, (auctionStakeCallbackOk ids s).2.nodeState n
        = VNodeState.Active)
    ∧ (auctionStakeCallbackOk ids s).2.events = s.events ++ [.activationOk] := by
  unfold auctionStakeCallbackOk
  rw [if_neg (by simp [hne])]
  dsimp only
  refine ⟨rfl, ?_, ?_⟩
  · intro n hn
    show (setStates _ ids .Active).nodeState n = _
    rw [setStates_nodeStateV, if_pos hn]
  · show (setStates _ ids VNodeState.Active).events ++ _ = _
    rw [setStates_eventsV]

/-- The `v0_4` stake failure handler on a non-empty subset: succeeds, moves
every listed node to the distinct `ActivationFailed` marker, reverts the
matching ledger stake from the in-flight bucket back to the free bucket,
and appends one failure event carrying the message. -/
theorem auctionStakeCallbackFail_specV (ids : List Nat) (msg : String)
    (s : V04State) (hne : ids.isEmpty = false) :
    (auctionStakeCallbackFail ids msg s).1 = .ok ()
    ∧ (∀ n ∈ ids, (auctionStakeCallbackFail ids msg s).2.nodeState n
        = VNodeState.ActivationFailed)
    ∧ (auctionStakeCallbackFail ids msg s).2.events
        = s.events ++ [.activationFail msg]
    ∧ (pickSum (fun b => decide (b.desc = VFundDesc.Inactive))
          (auctionStakeCallbackFail ids msg s).2.funds
        = pickSum (fun b => decide (b.desc = VFundDesc.Inactive)) s.funds
          + min (ids.length * s.stakePerNode)
              (pickSum (fun b => decide (b.desc = VFundDesc.PendingActivation)) s.funds))
    ∧ (pickSum (fun b => decide (b.desc = VFundDesc.PendingActivation))
          (auctionStakeCallbackFail ids msg s).2.funds
        = pickSum (fun b => decide (b.desc = VFundDesc.PendingActivation)) s.funds
          - min (ids.length * s.stakePerNode)
              (pickSum (fun b => decide (b.desc = VFundDesc.PendingActivation)) s.funds)) := by
  have hks := splitConvertMax_kindSum
    (fun d => decide (d = VFundDesc.PendingActivation)) VFundDesc.Inactive
    rfl (ids.length * s.stakePerNode) s.funds
  unfold auctionStakeCallbackFail
  rw [if_neg (by simp [hne])]
  dsimp only
  refine ⟨rfl, ?_, ?_, ?_, ?_⟩
  · intro n hn
    show (setStates _ ids .ActivationFailed).nodeState n = _
    rw [setStates_nodeStateV, if_pos hn]
  · show (setStates _ ids VNodeState.ActivationFailed).events ++ _ = _
    rw [setStates_eventsV]
  · show pickSum _ (setStates _ ids VNodeState.ActivationFailed).funds = _
    rw [setStates_funds]
    exact hks.2
  · show pickSum _ (setStates _ ids VNodeState.ActivationFailed).funds = _
    rw [setStates_funds]
    exact hks.1

/-- The `v0_4` unstake success handler on a non-empty subset (events). -/
theorem auctionUnstakeCallbackOk_events (ids : List Nat) (s : V04State)
    (hne : ids.isEmpty = false) :
    (auctionUnstakeCallbackOk ids s).1 = .ok ()
    ∧ (auctionUnstakeCallbackOk ids s).2.events = s.events ++ [.deactivationOk] := by
  unfold auctionUnstakeCallbackOk
  rw [if_neg (by simp [hne])]
  dsimp only
  refine ⟨rfl, ?_⟩
  rw [addEvent_eventsV, foldl_events
    (fun acc n => setUnstakeNonce (setNodeState acc n .UnBondPeriod) n acc.blockNonce)
    (fun _ _ => rfl)]

/-- The `v0_4` unstake failure handler on a non-empty subset. -/
theorem auctionUnstakeCallbackFail_specV (ids : List Nat) (msg : String)
    (s : V04State) (hne : ids.isEmpty = false) :
    (auctionUnstakeCallbackFail ids msg s).1 = .ok ()
    ∧ (∀ n ∈ ids, (auctionUnstakeCallbackFail ids msg s).2.nodeState n
        = VNodeState.Active)
    ∧ (auctionUnstakeCallbackFail ids msg s).2.events
        = s.events ++ [.deactivationFail msg] := by
  unfold auctionUnstakeCallbackFail
  rw [if_neg (by simp [hne])]
  dsimp only
  refine ⟨rfl, ?_, ?_⟩
  · intro n hn
    show (setStates _ ids .Active).nodeState n = _
    rw [setStates_nodeStateV, if_pos hn]
  · show (setStates _ ids VNodeState.Active).events ++ _ = _
    rw [setStates_eventsV]

/-- The `v0_4` unbond failure handler on a non-empty subset: succeeds
unconditionally, reverts every listed node to `UnBondPeriod` (without any
pending-state check), leaves every unstake nonce untouched, and appends one
failure event carrying the message. -/
theorem auctionUnbondCallbackFail_spec (ids : List Nat) (msg : String)
    (s : V04State) (hne : ids.isEmpty = false) :
    (auctionUnbondCallbackFail ids msg s).1 = .ok ()
    ∧ (∀ n ∈ ids, (auctionUnbondCallbackFail ids msg s).2.nodeState n
        = VNodeState.UnBondPeriod)
    ∧ (∀ m, (auctionUnbondCallbackFail ids msg s).2.unstakeNonce m
        = s.unstakeNonce m)
    ∧ (auctionUnbondCallbackFail ids msg s).2.events
        = s.events ++ [.unbondFail msg] := by
  unfold auctionUnbondCallbackFail
  rw [if_neg (by simp [hne])]
  dsimp only
  refine ⟨rfl, ?_, ?_, ?_⟩
  · intro n hn
    show (setStates _ ids .UnBondPeriod).nodeState n = _
    rw [setStates_nodeStateV, if_pos hn]
  · intro m
    show (setStates _ ids VNodeState.UnBondPeriod).unstakeNonce m = _
    rw [setStates_unstakeNonce]
  · show (setStates _ ids VNodeState.UnBondPeriod).events ++ _ = _
    rw [setStates_eventsV]

/-- The `v0_4` unbond success handler appends at most one event — exactly
one when it succeeds on a non-empty subset, none otherwise. -/
theorem auctionUnbondCallbackOk_events (ids : List Nat) (s : V04State) :
    (auctionUnbondCallbackOk ids s).2.events = s.events
    ∨ (auctionUnbondCallbackOk ids s).2.events = s.events ++ [.unbondOk] := by
  unfold auctionUnbondCallbackOk
  by_cases he : ids.isEmpty = true
  · rw [if_pos he]
    exact Or.inl rfl
  · rw [if_neg he]
    dsimp only
    have hfold : (ids.foldl
        (fun acc n => setUnstakeNonce (setNodeState acc n .Inactive) n 0) s).events
          = s.events := foldl_events
      (fun acc n => setUnstakeNonce (setNodeState acc n .Inactive) n 0)
      (fun _ _ => rfl) ids s
    by_cases hr : (unbondFinishOkTransf
        (ids.length * s.stakePerNode)
        (ids.foldl (fun acc n => setUnstakeNonce (setNodeState acc n .Inactive) n 0) s).funds).2 > 0
    · rw [if_pos hr]
      exact Or.inl hfold
    · rw [if_neg hr]
      right
      rw [addEvent_eventsV, hfold]

end V04

theorem isEmpty_false_of_ne {α : Type} (l : List α) (h : l ≠ []) :
    l.isEmpty = false := by
  cases l with
  | nil => exact absurd rfl h
  | cons a tl => rfl

namespace Latest

/-- If the per-key loop of `stake_nodes` fails, the whole command fails. -/
theorem rawStakeNodes_err_of_loop (amt : Nat) (keys : List Nat)
    (s : LatestState) (h : isErr (rawStakeLoop keys [] [] s).1 = true) :
    isErr (rawStakeNodes amt keys s).1 = true := by
  unfold rawStakeNodes
  by_cases h1 : s.callerIsOwner = true
  · rw [if_neg (by simp [h1])]
    by_cases h2 : s.bootstrapMode = true
    · rw [if_pos h2]
      rfl
    · rw [if_neg h2]
      by_cases h3 : s.globalOpInProgress = true
      · rw [if_pos h3]
        rfl
      · rw [if_neg h3]
        by_cases h4 : s.totalUnprotected < amt
        · rw [if_pos h4]
          rfl
        · rw [if_neg h4]
          by_cases h5 : s.ownerStakeShareOk = true
          · rw [if_neg (by simp [h5])]
            rcases hres : rawStakeLoop keys [] [] s with ⟨r, s'⟩
            rw [hres] at h
            cases r with
            | ok v =>
              simp [isErr] at h
            | error e =>
              rfl
          · rw [if_pos (by simp [h5])]
            rfl
  · rw [if_pos (by simp [h1])]
    rfl

/-- A successful `stake_nodes` run is exactly a successful loop followed by
the single batched stake request over the collected ids and pairs. -/
theorem rawStakeNodes_ok (amt : Nat) (keys : List Nat) (s : LatestState)
    (c : OutCall) (s' : LatestState)
    (h : rawStakeNodes amt keys s = (.ok c, s')) :
    ∃ ids pairs, rawStakeLoop keys [] [] s = (.ok (ids, pairs), s')
      ∧ c = .stake ids.length pairs amt ids := by
  unfold rawStakeNodes at h
  by_cases h1 : s.callerIsOwner = true
  · rw [if_neg (by simp [h1])] at h
    by_cases h2 : s.bootstrapMode = true
    · rw [if_pos h2] at h
      simp at h
    · rw [if_neg h2] at h
      by_cases h3 : s.globalOpInProgress = true
      · rw [if_pos h3] at h
        simp at h
      · rw [if_neg h3] at h
        by_cases h4 : s.totalUnprotected < amt
        · rw [if_pos h4] at h
          simp at h
        · rw [if_neg h4] at h
          by_cases h5 : s.ownerStakeShareOk = true
          · rw [if_neg (by simp [h5])] at h
            rcases hres : rawStakeLoop keys [] [] s with ⟨r, s''⟩
            rw [hres] at h
            cases r with
            | ok v =>
              rcases v with ⟨ids, pairs⟩
              simp only [Prod.mk.injEq, Except.ok.injEq] at h
              obtain ⟨hc, hs⟩ := h
              subst hs
              exact ⟨ids, pairs, rfl, hc.symm⟩
            | error e =>
              simp at h
          · rw [if_pos (by simp [h5])] at h
            simp at h
  · rw [if_pos (by simp [h1])] at h
    simp at h

end Latest

/-- C2: a node in any `Pending*` state cannot be selected as the target of
a new flow: a stake command naming a key that resolves to it is rejected
(stake requires `Inactive`), `perform_unstake_nodes` targeting it is
rejected (unstake requires `Active`), and
`prepare_node_for_unbond_if_possible` neither selects nor touches it
(unbond requires `UnBondPeriod`) — so a node never acquires a second
outstanding asynchronous flow. -/
theorem c2_pending_nodes_not_selectable (s : Latest.LatestState) (n : Nat)
    (hp : (s.nodeState n).isPending = true) :
    (∀ (amountToStake : Nat) (keys : List Nat) (k : Nat),
      k ∈ keys → s.nodeKey k = n →
      isErr (Latest.rawStakeNodes amountToStake keys s).1 = true)
    ∧ (∀ (unstakeTokens : Bool) (ids keys : List Nat),
      n ∈ ids →
      isErr (Latest.rawPerformUnstakeNodes unstakeTokens ids keys s).1 = true)
    ∧ Latest.prepareNodeForUnbondIfPossible s n = (false, s) := by
  refine ⟨?_, ?_, Latest.prepare_pending_not_selected s n hp⟩
  · intro amt keys k hk hkey
    apply Latest.rawStakeNodes_err_of_loop
    apply Latest.rawStakeLoop_err keys [] [] s
    refine ⟨k, hk, Or.inr ?_⟩
    rw [hkey]
    intro hcon
    rw [hcon] at hp
    simp [Latest.NodeState.isPending] at hp
  · intro ut ids keys hin
    have hloop := Latest.rawPerformUnstakeLoop_err ids s n hin (by
      intro hcon
      rw [hcon] at hp
      simp [Latest.NodeState.isPending] at hp)
    unfold Latest.rawPerformUnstakeNodes
    rcases hres : Latest.rawPerformUnstakeLoop ids s with ⟨r, s'⟩
    rw [hres] at hloop
    cases r with
    | ok v => simp [isErr] at hloop
    | error e => rfl

/-- Witness for C2 at a concrete state: node `1` is `PendingActivation`,
key `5` resolves to it; staking key `5`, unstaking node `1`, and preparing
node `1` for unbond are all refused. -/
theorem c2_pending_nodes_not_selectable_witness :
    (stPend.nodeState 1).isPending = true
    ∧ isErr (Latest.rawStakeNodes 7 [5] stPend).1 = true
    ∧ isErr (Latest.rawPerformUnstakeNodes false [1] [] stPend).1 = true
    ∧ Latest.prepareNodeForUnbondIfPossible stPend 1 = (false, stPend) := by
  have h := c2_pending_nodes_not_selectable stPend 1 (by decide)
  exact ⟨by decide, h.1 7 [5] 5 (by simp) (by decide), h.2.1 false [1] [] (by simp),
    h.2.2⟩

/-- C3 counterexample: the raw body of the `latest` `stake_nodes` on keys
`[1, 2]` (key `1` known and inactive, key `2` unknown) rejects the command
with "unknown node provided" — but by that point node `1` has already been
mutated to `PendingActivation`, so a full validation pass does not precede
the mutating pass; the all-or-nothing behaviour comes from the platform's
revert-on-error, not from validate-before-mutate ordering. -/
theorem c3_validation_mutation_interleaved_cex :
    (Latest.rawStakeNodes 0 [1, 2] stC3).1 = .error "unknown node provided"
    ∧ (Latest.rawStakeNodes 0 [1, 2] stC3).2.nodeState 1
        = Latest.NodeState.PendingActivation
    ∧ stC3.nodeState 1 = Latest.NodeState.Inactive := ⟨rfl, rfl, rfl⟩

/-- C3 (amended): every stake, unstake, or unbond command that is rejected
with a precondition or authorization error leaves no net mutation of node
or ledger state, because an endpoint error reverts the transaction —
although validation is interleaved with mutation inside the command body
rather than forming a separate pass that precedes it. -/
theorem c3_rejected_commands_leave_state_unchanged :
    (∀ (amt : Nat) (keys : List Nat) (s : Latest.LatestState),
      isErr (Latest.stakeNodesEp amt keys s).1 = true →
      (Latest.stakeNodesEp amt keys s).2 = s)
    ∧ (∀ (ut : Bool) (keys : List Nat) (s : Latest.LatestState),
      isErr (Latest.unstakeNodesEp ut keys s).1 = true →
      (Latest.unstakeNodesEp ut keys s).2 = s)
    ∧ (∀ (keys : List Nat) (s : Latest.LatestState),
      isErr (Latest.unbondSpecificEp keys s).1 = true →
      (Latest.unbondSpecificEp keys s).2 = s)
    ∧ (∀ (s : Latest.LatestState),
      isErr (Latest.unbondAllEp s).1 = true → (Latest.unbondAllEp s).2 = s)
    ∧ (∀ (keys : List Nat) (s : V04.V04State),
      isErr (V04.stakeNodesEp keys s).1 = true →
      (V04.stakeNodesEp keys s).2 = s) :=
  ⟨fun _ _ s h => runEp_err _ s h,
   fun _ _ s h => runEp_err _ s h,
   fun _ s h => runEp_err _ s h,
   fun s h => runEp_err _ s h,
   fun _ s h => runEp_err _ s h⟩

/-- Witness for C3 at a concrete state: the rejected stake endpoint call
leaves the state untouched. -/
theorem c3_rejected_commands_leave_state_unchanged_witness :
    isErr (Latest.stakeNodesEp 0 [1, 2] stC3).1 = true
    ∧ (Latest.stakeNodesEp 0 [1, 2] stC3).2 = stC3 :=
  ⟨rfl, c3_rejected_commands_leave_state_unchanged.1 0 [1, 2] stC3 rfl⟩

/-- C4 counterexample: the `latest` unbond-all scan at the claim's scenario
(nodes in `UnBondPeriod` started at blocks `10` and `50`, current block
`100`, claimed delay `60`) selects BOTH nodes, `[2, 1]` — including node
`2`, whose elapsed `50` blocks do not exceed `60` — because the `latest`
variant applies no elapsed-time condition at all (and has no delay
parameter in this code path). -/
theorem c4_latest_unbond_all_ignores_delay_cex :
    (Latest.unbondScan stC4L stC4L.numNodes).1 = [2, 1]
    ∧ stC4L.nodeState 2 = Latest.NodeState.UnBondPeriod 50
    ∧ stC4L.blockNonce = 100
    ∧ ¬(stC4L.blockNonce - 50 > 60) := ⟨rfl, rfl, rfl, by decide⟩

/-- C4 (amended): both unbond-all commands scan node ids in descending
order from the highest id down to `1`; the `v0_4` variant selects exactly
the nodes in `UnBondPeriod` whose elapsed blocks since their recorded
unstake nonce reach at least the configured delay (`current ≥ started +
delay`, not strictly greater), while the `latest` variant selects every
node in `UnBondPeriod` with no elapsed-time condition; at the scenario with
start blocks `{10, 50}`, current block `100` and delay `60`, the `v0_4`
command selects only the node started at `10`. -/
theorem c4_unbond_all_selection_characterization :
    (∀ s : V04.V04State,
      (V04.rawUnbondAllScan s s.numNodes).1
        = (descList s.numNodes).filter (fun n =>
            decide (s.nodeState n = V04.VNodeState.UnBondPeriod) &&
            decide (s.blockNonce ≥ s.unstakeNonce n + s.nBlocksBeforeUnbond)))
    ∧ (∀ s : Latest.LatestState,
      (Latest.unbondScan s s.numNodes).1
        = (descList s.numNodes).filter (fun n => (s.nodeState n).isUnBondPeriod))
    ∧ (V04.rawUnbondAllScan stC4V stC4V.numNodes).1 = [1] :=
  ⟨fun s => V04.rawUnbondAllScan_sel s.numNodes s,
   fun s => Latest.unbondScan_sel s.numNodes s,
   rfl⟩

/-- C5 counterexample: the `v0_4` unbond failure callback on a node that is
NOT `PendingUnBond` (node `1` is `Active`) silently succeeds and overwrites
the node to `UnBondPeriod`, instead of aborting with an error. -/
theorem c5_v04_unbond_revert_no_assert_cex :
    (V04.auctionUnbondCallbackFail [1] "err" stC5V).1 = .ok ()
    ∧ (V04.auctionUnbondCallbackFail [1] "err" stC5V).2.nodeState 1
        = V04.VNodeState.UnBondPeriod
    ∧ stC5V.nodeState 1 = V04.VNodeState.Active := ⟨rfl, rfl, rfl⟩

/-- C5 (amended): in the `latest` variant, the unbond failure callback
reverts each node in `PendingUnBond` to `UnBondPeriod` carrying the original
start block through the pending state (not recomputed), and aborts with an
error as soon as any listed node is not in `PendingUnBond`; the `v0_4`
variant instead reverts every listed node to `UnBondPeriod` unconditionally,
without that assertion, leaving the separately stored unstake-start nonce
untouched. -/
theorem c5_unbond_fail_revert_behaviour :
    (∀ (ids : List Nat) (msg : String) (s : Latest.LatestState),
      ids ≠ [] → ids.Nodup →
      (∀ n ∈ ids, (s.nodeState n).isPendingUnBond = true) →
      (Latest.auctionUnbondCallbackFail ids msg s).1 = .ok ()
      ∧ ∀ n ∈ ids, (Latest.auctionUnbondCallbackFail ids msg s).2.nodeState n
          = Latest.NodeState.UnBondPeriod ((s.nodeState n).carriedNonce))
    ∧ (∀ (ids : List Nat) (msg : String) (s : Latest.LatestState) (n : Nat),
      n ∈ ids → (s.nodeState n).isPendingUnBond = false →
      isErr (Latest.auctionUnbondCallbackFail ids msg s).1 = true)
    ∧ (∀ (ids : List Nat) (msg : String) (s : V04.V04State),
      ids ≠ [] →
      (V04.auctionUnbondCallbackFail ids msg s).1 = .ok ()
      ∧ (∀ n ∈ ids, (V04.auctionUnbondCallbackFail ids msg s).2.nodeState n
          = V04.VNodeState.UnBondPeriod)
      ∧ (∀ m, (V04.auctionUnbondCallbackFail ids msg s).2.unstakeNonce m
          = s.unstakeNonce m)) := by
  refine ⟨?_, ?_, ?_⟩
  · intro ids msg s hne hnd hpend
    obtain ⟨hok, hin, _, _⟩ := Latest.revertUnbondLoop_ok ids s hnd hpend
    unfold Latest.auctionUnbondCallbackFail
    rw [if_neg (by simp [isEmpty_false_of_ne ids hne])]
    rcases hres : Latest.revertUnbondLoop ids s with ⟨r, s'⟩
    rw [hres] at hok hin
    cases r with
    | ok v =>
      refine ⟨rfl, ?_⟩
      intro n hn
      show s'.nodeState n = _
      exact hin n hn
    | error e => simp at hok
  · intro ids msg s n hn hns
    have hloop := Latest.revertUnbondLoop_err ids s n hn hns
    unfold Latest.auctionUnbondCallbackFail
    rw [if_neg (by simp [isEmpty_false_of_ne ids (by rintro rfl; exact absurd hn (List.not_mem_nil n))])]
    rcases hres : Latest.revertUnbondLoop ids s with ⟨r, s'⟩
    rw [hres] at hloop
    cases r with
    | ok v => simp [isErr] at hloop
    | error e => rfl
  · intro ids msg s hne
    obtain ⟨h1, h2, h3, _⟩ :=
      V04.auctionUnbondCallbackFail_spec ids msg s (isEmpty_false_of_ne ids hne)
    exact ⟨h1, h2, h3⟩

/-- Witness for C5 at a concrete state: nodes `1`, `2` in `PendingUnBond`
with carried start blocks `10`, `20` are reverted to `UnBondPeriod 10` and
`UnBondPeriod 20`. -/
theorem c5_unbond_fail_revert_behaviour_witness :
    (Latest.auctionUnbondCallbackFail [1, 2] "m" stPUB).1 = .ok ()
    ∧ (Latest.auctionUnbondCallbackFail [1, 2] "m" stPUB).2.nodeState 1
        = Latest.NodeState.UnBondPeriod 10
    ∧ (Latest.auctionUnbondCallbackFail [1, 2] "m" stPUB).2.nodeState 2
        = Latest.NodeState.UnBondPeriod 20 := by
  have h := c5_unbond_fail_revert_behaviour.1 [1, 2] "m" stPUB
    (by simp) (by decide) (by decide)
  exact ⟨h.1, h.2 1 (by simp), h.2 2 (by simp)⟩

/-- C6: for every stake callback reporting per-node failure (a non-empty
failed subset), the `latest` variant reverts each failed node to `Inactive`
and the `v0_4` variant marks it with the distinct `ActivationFailed`
marker; the `v0_4` ledger moves the matching stake out of the in-flight
bucket back to the pre-call free bucket; and both variants emit one failure
event carrying the authority's error message. -/
theorem c6_stake_callback_fail_behaviour :
    (∀ (ids : List Nat) (msg : String) (s : Latest.LatestState), ids ≠ [] →
      (Latest.auctionStakeCallbackFail ids msg s).1 = .ok ()
      ∧ (∀ n ∈ ids, (Latest.auctionStakeCallbackFail ids msg s).2.nodeState n
          = Latest.NodeState.Inactive)
      ∧ (Latest.auctionStakeCallbackFail ids msg s).2.events
          = s.events ++ [.stakeNodeFail msg])
    ∧ (∀ (ids : List Nat) (msg : String) (s : V04.V04State), ids ≠ [] →
      (V04.auctionStakeCallbackFail ids msg s).1 = .ok ()
      ∧ (∀ n ∈ ids, (V04.auctionStakeCallbackFail ids msg s).2.nodeState n
          = V04.VNodeState.ActivationFailed)
      ∧ (V04.auctionStakeCallbackFail ids msg s).2.events
          = s.events ++ [.activationFail msg]
      ∧ (pickSum (fun b => decide (b.desc = V04.VFundDesc.Inactive))
            (V04.auctionStakeCallbackFail ids msg s).2.funds
          = pickSum (fun b => decide (b.desc = V04.VFundDesc.Inactive)) s.funds
            + min (ids.length * s.stakePerNode)
                (pickSum (fun b => decide (b.desc = V04.VFundDesc.PendingActivation)) s.funds))
      ∧ (pickSum (fun b => decide (b.desc = V04.VFundDesc.PendingActivation))
            (V04.auctionStakeCallbackFail ids msg s).2.funds
          = pickSum (fun b => decide (b.desc = V04.VFundDesc.PendingActivation)) s.funds
            - min (ids.length * s.stakePerNode)
                (pickSum (fun b => decide (b.desc = V04.VFundDesc.PendingActivation)) s.funds))) := by
  constructor
  · intro ids msg s hne
    exact Latest.auctionStakeCallbackFail_spec ids msg s (isEmpty_false_of_ne ids hne)
  · intro ids msg s hne
    exact V04.auctionStakeCallbackFail_specV ids msg s (isEmpty_false_of_ne ids hne)

/-- Witness for C6 at concrete states: one failed node in each variant; the
`v0_4` ledger starts with `30` in-flight, of which `10` (one node's stake)
returns to the free bucket. -/
theorem c6_stake_callback_fail_behaviour_witness :
    (Latest.auctionStakeCallbackFail [1] "boom" baseL).1 = .ok ()
    ∧ (V04.auctionStakeCallbackFail [1] "boom" stC6V).2.events
        = stC6V.events ++ [.activationFail "boom"]
    ∧ pickSum (fun b => decide (b.desc = V04.VFundDesc.Inactive))
        (V04.auctionStakeCallbackFail [1] "boom" stC6V).2.funds
      = pickSum (fun b => decide (b.desc = V04.VFundDesc.Inactive)) stC6V.funds
        + min ([1].length * stC6V.stakePerNode)
            (pickSum (fun b => decide (b.desc = V04.VFundDesc.PendingActivation)) stC6V.funds) := by
  have h1 := c6_stake_callback_fail_behaviour.1 [1] "boom" baseL (by simp)
  have h2 := c6_stake_callback_fail_behaviour.2 [1] "boom" stC6V (by simp)
  exact ⟨h1.1, h2.2.2.1, h2.2.2.2.1⟩

/-- C7 counterexample: the `v0_4` `stake_nodes` with a single unknown key
(resolving to node id `0`, whose unread storage yields the initial
`Inactive` state) is NOT rejected: it succeeds and even stages phantom node
`0` as `PendingActivation`. -/
theorem c7_v04_unknown_key_not_rejected_cex :
    stC7V.nodeKey 99 = 0
    ∧ isErr (V04.rawStakeNodes [99] stC7V).1 = false
    ∧ (V04.rawStakeNodes [99] stC7V).2.nodeState 0
        = V04.VNodeState.PendingActivation := ⟨rfl, rfl, rfl⟩

/-- C7 (amended): in the `latest` variant every supplied BLS key must
resolve to a known node (nonzero id, else "unknown node provided") that is
currently `Inactive` (else "node must be inactive"), and a successful
command has set every validated node to `PendingActivation` and issued one
batched stake request whose node count, id list and amount match the
resolved keys; the `v0_4` variant checks only the `Inactive` state — it has
no nonzero-id check, so an unknown key is not rejected as such. -/
theorem c7_stake_validation_behaviour :
    (∀ (amt : Nat) (keys : List Nat) (s : Latest.LatestState) (k : Nat),
      k ∈ keys → s.nodeKey k = 0 →
      isErr (Latest.rawStakeNodes amt keys s).1 = true)
    ∧ (∀ (amt : Nat) (keys : List Nat) (s : Latest.LatestState) (k : Nat),
      k ∈ keys → s.nodeState (s.nodeKey k) ≠ Latest.NodeState.Inactive →
      isErr (Latest.rawStakeNodes amt keys s).1 = true)
    ∧ (∀ (amt : Nat) (keys : List Nat) (s : Latest.LatestState)
        (c : Latest.OutCall) (s' : Latest.LatestState),
      Latest.rawStakeNodes amt keys s = (.ok c, s') →
      ∃ pairs, c = .stake (keys.map s.nodeKey).length pairs amt (keys.map s.nodeKey)
        ∧ ∀ n ∈ keys.map s.nodeKey,
            s'.nodeState n = Latest.NodeState.PendingActivation) := by
  refine ⟨?_, ?_, ?_⟩
  · intro amt keys s k hk h0
    exact Latest.rawStakeNodes_err_of_loop amt keys s
      (Latest.rawStakeLoop_err keys [] [] s ⟨k, hk, Or.inl h0⟩)
  · intro amt keys s k hk hni
    exact Latest.rawStakeNodes_err_of_loop amt keys s
      (Latest.rawStakeLoop_err keys [] [] s ⟨k, hk, Or.inr hni⟩)
  · intro amt keys s c s' h
    obtain ⟨ids, pairs, hloop, hc⟩ := Latest.rawStakeNodes_ok amt keys s c s' h
    obtain ⟨hids, hstates⟩ := Latest.rawStakeLoop_ok keys [] [] s ids pairs s' hloop
      (by intro n hn; exact absurd hn (List.not_mem_nil n))
    rw [List.nil_append] at hids
    subst hids
    exact ⟨pairs, hc, hstates⟩

/-- Witness for C7 at concrete states: an unknown key and a known-but-
pending key are both rejected by the `latest` stake command. -/
theorem c7_stake_validation_behaviour_witness :
    isErr (Latest.rawStakeNodes 3 [9] stPend).1 = true
    ∧ isErr (Latest.rawStakeNodes 3 [5] stPend).1 = true := by
  refine ⟨c7_stake_validation_behaviour.1 3 [9] stPend 9 (by simp) (by decide),
    c7_stake_validation_behaviour.2.1 3 [5] stPend 5 (by simp) (by decide)⟩

/-- C8: a transport-level error covering the whole batch makes each of the
three cited callbacks (`latest` stake, `latest` unstake, `v0_4` unbond)
process every node id of the original request through its failure/revert
path — exactly as if each node had individually failed — and emit one
failure event carrying the transport error message. -/
theorem c8_transport_error_fails_whole_batch :
    (∀ (ids : List Nat) (msg : String) (s : Latest.LatestState), ids ≠ [] →
      (Latest.auctionStakeCallback ids (.err msg) s).1 = .ok ()
      ∧ (∀ n ∈ ids, (Latest.auctionStakeCallback ids (.err msg) s).2.nodeState n
          = Latest.NodeState.Inactive)
      ∧ (Latest.auctionStakeCallback ids (.err msg) s).2.events
          = s.events ++ [.stakeNodeFail msg])
    ∧ (∀ (ids : List Nat) (msg : String) (s : Latest.LatestState), ids ≠ [] →
      (Latest.auctionUnstakeCallback ids (.err msg) s).1 = .ok ()
      ∧ (∀ n ∈ ids, (Latest.auctionUnstakeCallback ids (.err msg) s).2.nodeState n
          = Latest.NodeState.Active)
      ∧ (Latest.auctionUnstakeCallback ids (.err msg) s).2.events
          = s.events ++ [.unstakeNodeFail msg])
    ∧ (∀ (ids : List Nat) (msg : String) (s : V04.V04State), ids ≠ [] →
      (V04.auctionUnbondCallback ids (.err msg) s).1 = .ok ()
      ∧ (∀ n ∈ ids, (V04.auctionUnbondCallback ids (.err msg) s).2.nodeState n
          = V04.VNodeState.UnBondPeriod)
      ∧ (V04.auctionUnbondCallback ids (.err msg) s).2.events
          = s.events ++ [.unbondFail msg]) := by
  refine ⟨?_, ?_, ?_⟩
  · intro ids msg s hne
    exact Latest.auctionStakeCallbackFail_spec ids msg s (isEmpty_false_of_ne ids hne)
  · intro ids msg s hne
    exact Latest.auctionUnstakeCallbackFail_spec ids msg s (isEmpty_false_of_ne ids hne)
  · intro ids msg s hne
    obtain ⟨h1, h2, _, h4⟩ :=
      V04.auctionUnbondCallbackFail_spec ids msg s (isEmpty_false_of_ne ids hne)
    exact ⟨h1, h2, h4⟩

/-- Witness for C8 at concrete states. -/
theorem c8_transport_error_fails_whole_batch_witness :
    (Latest.auctionStakeCallback [1] (.err "down") baseL).2.events
        = baseL.events ++ [.stakeNodeFail "down"]
    ∧ (V04.auctionUnbondCallback [1] (.err "down") baseV).2.nodeState 1
        = V04.VNodeState.UnBondPeriod := by
  refine ⟨(c8_transport_error_fails_whole_batch.1 [1] "down" baseL (by simp)).2.2,
    (c8_transport_error_fails_whole_batch.2.2 [1] "down" baseV (by simp)).2.1 1 (by simp)⟩

/-- C10: every callback handler invoked on an empty succeeded/failed subset
returns success and changes nothing (no node state, no ledger, no event);
and every handler appends at most one event to the log — the handler's own
event — so each callback emits at most one success and at most one failure
event, each only when its subset is non-empty. -/
theorem c10_callbacks_empty_subset_noop_one_event :
    (∀ s : Latest.LatestState,
      Latest.auctionStakeCallbackOk [] s = (.ok (), s)
      ∧ (∀ msg, Latest.auctionStakeCallbackFail [] msg s = (.ok (), s))
      ∧ Latest.auctionUnstakeCallbackOk [] s = (.ok (), s)
      ∧ (∀ msg, Latest.auctionUnstakeCallbackFail [] msg s = (.ok (), s))
      ∧ Latest.auctionUnbondCallbackOk [] s = (.ok (), s)
      ∧ (∀ msg, Latest.auctionUnbondCallbackFail [] msg s = (.ok (), s)))
    ∧ (∀ s : V04.V04State,
      V04.auctionStakeCallbackOk [] s = (.ok (), s)
      ∧ (∀ msg, V04.auctionStakeCallbackFail [] msg s = (.ok (), s))
      ∧ V04.auctionUnstakeCallbackOk [] s = (.ok (), s)
      ∧ (∀ msg, V04.auctionUnstakeCallbackFail [] msg s = (.ok (), s))
      ∧ V04.auctionUnbondCallbackOk [] s = (.ok (), s)
      ∧ (∀ msg, V04.auctionUnbondCallbackFail [] msg s = (.ok (), s)))
    ∧ (∀ (ids : List Nat) (s : Latest.LatestState),
      ((Latest.auctionStakeCallbackOk ids s).2.events = s.events
        ∨ (Latest.auctionStakeCallbackOk ids s).2.events = s.events ++ [.stakeNodeOk])
      ∧ (∀ msg, (Latest.auctionStakeCallbackFail ids msg s).2.events = s.events
        ∨ (Latest.auctionStakeCallbackFail ids msg s).2.events
            = s.events ++ [.stakeNodeFail msg])
      ∧ ((Latest.auctionUnstakeCallbackOk ids s).2.events = s.events
        ∨ (Latest.auctionUnstakeCallbackOk ids s).2.events = s.events ++ [.unstakeNodeOk])
      ∧ (∀ msg, (Latest.auctionUnstakeCallbackFail ids msg s).2.events = s.events
        ∨ (Latest.auctionUnstakeCallbackFail ids msg s).2.events
            = s.events ++ [.unstakeNodeFail msg])
      ∧ ((Latest.auctionUnbondCallbackOk ids s).2.events = s.events
        ∨ (Latest.auctionUnbondCallbackOk ids s).2.events = s.events ++ [.unbondNodeOk])
      ∧ (∀ msg, (Latest.auctionUnbondCallbackFail ids msg s).2.events = s.events
        ∨ (Latest.auctionUnbondCallbackFail ids msg s).2.events
            = s.events ++ [.unbondNodeFail msg]))
    ∧ (∀ (ids : List Nat) (s : V04.V04State),
      ((V04.auctionStakeCallbackOk ids s).2.events = s.events
        ∨ (V04.auctionStakeCallbackOk ids s).2.events = s.events ++ [.activationOk])
      ∧ (∀ msg, (V04.auctionStakeCallbackFail ids msg s).2.events = s.events
        ∨ (V04.auctionStakeCallbackFail ids msg s).2.events
            = s.events ++ [.activationFail msg])
      ∧ ((V04.auctionUnstakeCallbackOk ids s).2.events = s.events
        ∨ (V04.auctionUnstakeCallbackOk ids s).2.events = s.events ++ [.deactivationOk])
      ∧ (∀ msg, (V04.auctionUnstakeCallbackFail ids msg s).2.events = s.events
        ∨ (V04.auctionUnstakeCallbackFail ids msg s).2.events
            = s.events ++ [.deactivationFail msg])
      ∧ ((V04.auctionUnbondCallbackOk ids s).2.events = s.events
        ∨ (V04.auctionUnbondCallbackOk ids s).2.events = s.events ++ [.unbondOk])
      ∧ (∀ msg, (V04.auctionUnbondCallbackFail ids msg s).2.events = s.events
        ∨ (V04.auctionUnbondCallbackFail ids msg s).2.events
            = s.events ++ [.unbondFail msg])) := by
  refine ⟨?_, ?_, ?_, ?_⟩
  · intro s
    exact ⟨rfl, fun _ => rfl, rfl, fun _ => rfl, rfl, fun _ => rfl⟩
  · intro s
    exact ⟨rfl, fun _ => rfl, rfl, fun _ => rfl, rfl, fun _ => rfl⟩
  · intro ids s
    by_cases he : ids.isEmpty = true
    · have hid : ids = [] := by
        cases ids with
        | nil => rfl
        | cons a tl => simp [List.isEmpty] at he
      subst hid
      exact ⟨Or.inl rfl, fun _ => Or.inl rfl, Or.inl rfl, fun _ => Or.inl rfl,
        Or.inl rfl, fun _ => Or.inl rfl⟩
    · have he' : ids.isEmpty = false := by simpa using he
      refine ⟨Or.inr (Latest.auctionStakeCallbackOk_spec ids s he').2.2,
        fun msg => Or.inr (Latest.auctionStakeCallbackFail_spec ids msg s he').2.2,
        Or.inr (Latest.auctionUnstakeCallbackOk_spec ids s he').2.2,
        fun msg => Or.inr (Latest.auctionUnstakeCallbackFail_spec ids msg s he').2.2,
        Or.inr (Latest.auctionUnbondCallbackOk_spec ids s he').2.2,
        fun msg => Latest.auctionUnbondCallbackFail_events ids msg s⟩
  · intro ids s
    by_cases he : ids.isEmpty = true
    · have hid : ids = [] := by
        cases ids with
        | nil => rfl
        | cons a tl => simp [List.isEmpty] at he
      subst hid
      exact ⟨Or.inl rfl, fun _ => Or.inl rfl, Or.inl rfl, fun _ => Or.inl rfl,
        Or.inl rfl, fun _ => Or.inl rfl⟩
    · have he' : ids.isEmpty = false := by simpa using he
      refine ⟨Or.inr (V04.auctionStakeCallbackOk_specV ids s he').2.2,
        fun msg => Or.inr (V04.auctionStakeCallbackFail_specV ids msg s he').2.2.1,
        Or.inr (V04.auctionUnstakeCallbackOk_events ids s he').2,
        fun msg => Or.inr (V04.auctionUnstakeCallbackFail_specV ids msg s he').2.2,
        V04.auctionUnbondCallbackOk_events ids s,
        fun msg => Or.inr (V04.auctionUnbondCallbackFail_spec ids msg s he').2.2.2⟩

end SCDel
